import Mathlib

/-!
sip-ping: request rendering, transport strategies and the select loop

A shallow embedding of `main.go` and of the part of the vendored logger
`lcwlog.go` that decides how the process ends, together with theorems about
them.

Conventions of the embedding.

* A Go `string` or `[]byte` is a finite sequence of bytes.  A byte is
  represented by the character with the same code, so that ASCII text reads
  as written; the length of the list is the length in bytes.
* `crypto/rand` is an explicit stream of bytes that is passed along.
* The network is an explicit record of what dial, write and read return.
* A transport strategy is the list of the messages that it sends on the three
  channels of `main`, in the order of sending.
* Time is counted in nanoseconds, the unit of `time.Duration`; the `select`
  statement of `main` is a function of the times at which its cases get ready.
* Writing log lines is not modelled; `log.Fatal` is modelled by its exit code.
-/

namespace SipPing

/-- A Go string: a sequence of bytes, one character per byte. -/
abbrev GoString := List Char

/-! ## The parts of the Go standard library that `main.go` calls -/

/-- Scanning loop of `strings.Replace(s, old, new, -1)` for a non-empty `old`:
the text is read from left to right, `skip` is the number of bytes of a match
that are still to be passed over. -/
def replaceScan (old new : GoString) : Nat → GoString → GoString
  | _, [] => []
  | skip + 1, _ :: cs => replaceScan old new skip cs
  | 0, c :: cs =>
    if old.isPrefixOf (c :: cs) then new ++ replaceScan old new (old.length - 1) cs
    else c :: replaceScan old new 0 cs

/-- The library function `strings.Replace(s, old, new, -1)`, the same as
`strings.ReplaceAll(s, old, new)`: every non-overlapping occurrence of `old`,
found from left to right, is replaced by `new`.  For an empty `old` Go inserts
`new` in front of every character and at the end. -/
def strReplaceAll (s old new : GoString) : GoString :=
  if old = [] then new ++ s.flatMap (fun c => c :: new)
  else replaceScan old new 0 s

/-- The library function `strings.Contains(s, substr)`. -/
def strContains : GoString → GoString → Bool
  | [], sub => sub.isPrefixOf []
  | c :: cs, sub => sub.isPrefixOf (c :: cs) || strContains cs sub

/-- The library function `strings.ToUpper` on ASCII text (a URL scheme is
ASCII). -/
def strToUpper (s : GoString) : GoString := s.map Char.toUpper

/-- The library function `strings.ToLower` on ASCII text. -/
def strToLower (s : GoString) : GoString := s.map Char.toLower

/-- The library function `strconv.Itoa` on a non-negative number. -/
def itoa (n : Nat) : GoString := Nat.toDigits 10 n

/-- The random source behind `crypto/rand`: the stream of bytes it will hand
out (each value is taken modulo 256). -/
abbrev Rand := Nat → Nat

/-- The call `rand.Read(bytes)` for a slice of length `n`: the next `n` bytes of
the stream, and the stream that remains. -/
def randRead (n : Nat) (r : Rand) : List Nat × Rand :=
  ((List.range n).map (fun i => r i % 256), fun i => r (i + n))

/-- The library function `binary.BigEndian.Uint16` on a two-byte slice. -/
def bigEndianUint16 (bytes : List Nat) : Nat :=
  256 * bytes.getD 0 0 + bytes.getD 1 0

/-! ## `main.go`: constants and the request builder -/

/-- The two-byte line terminator CR LF. -/
def CRLF : GoString := ['\r', '\n']

def alphanum : GoString :=
  "0123456789ABCDEFGHIJKLMNOPQRSTUVWXYZabcdefghijklmnopqrstuvwxyz".toList

def WS_OPTIONS : GoString :=
  ("OPTIONS sip:monitor@none SIP/2.0\n" ++
   "Via: SIP/2.0/{{PROTOC}} 81okseq92jb7.invalid;branch=z9hG4bK5964427\n" ++
   "To: <sip:ba_user@none>\n" ++
   "From: <sip:anonymous.8scs48@anonymous.invalid>;tag=fql2c8mlg3\n" ++
   "Call-ID: {{callId}}\n" ++
   "CSeq: {{seq}} OPTIONS\n" ++
   "Content-Length: 0\n" ++
   "\n").toList

def TCP_OPTIONS : GoString :=
  ("OPTIONS sip:host@invalid:1739;transport={{proto}} SIP/2.0\n" ++
   "Via: SIP/2.0/{{PROTOC}} {{localaddr}};branch=z9hG4bKr1t13cmvZDjtg\n" ++
   "Max-Forwards: 70\n" ++
   "From: \"\" <sip:monitor@invalid>\n" ++
   "To: <sip:host@invalid;transport={{proto}}>\n" ++
   "Call-ID: {{callId}}\n" ++
   "CSeq: {{seq}} OPTIONS\n" ++
   "Content-Length: 0\n" ++
   "\n").toList

/-- The byte `alphanum[b % byte(len(alphanum))]`. -/
def alphanumAt (b : Nat) : Char :=
  alphanum.get ⟨b % alphanum.length, Nat.mod_lt _ (by decide)⟩

/-- The function `randString(n)`: `n` random bytes, each mapped into the
alphabet.  Returns the string and the random stream that remains. -/
def randString (n : Nat) (r : Rand) : GoString × Rand :=
  let (bytes, r1) := randRead n r
  (bytes.map alphanumAt, r1)

/-- The function `renderRequest(options, la, protocol)`.  Returns the request
and the random stream that remains. -/
def renderRequest (options la protocol : GoString) (r : Rand) : GoString × Rand :=
  let (bytes, r1) := randRead 2 r
  let seq := bigEndianUint16 bytes
  let (callId, r2) := randString 20 r1
  let req := strReplaceAll options "{{callId}}".toList callId
  let req := strReplaceAll req "{{localaddr}}".toList la
  let req := strReplaceAll req "{{PROTOC}}".toList (strToUpper protocol)
  let req := strReplaceAll req "{{proto}}".toList (strToLower protocol)
  let req := strReplaceAll req "{{seq}}".toList (itoa seq)
  let req := strReplaceAll req "\n".toList "\r\n".toList
  (req, r2)

/-! ## `main.go`: the transport strategies -/

/-- The struct `sipResponse`. -/
structure sipResponse where
  response : GoString
  response_time : Nat
  deriving DecidableEq, Repr

/-- A message that a transport strategy sends to `main`: on the channel
`request`, on the channel `response` or on the channel `response_err` (an
`error` is represented by its text). -/
inductive Msg where
  | request (req : GoString)
  | response (resp : sipResponse)
  | responseErr (err : GoString)
  deriving DecidableEq, Repr

/-- The fields of `url.URL` that the program reads. -/
structure URL where
  Scheme : GoString
  Host : GoString
  deriving DecidableEq, Repr

/-- The three ways in which `querySIP` dials: `tls.Dial("tcp", host, cfg)` with
`InsecureSkipVerify` set from the flag, `net.Dial("udp", host)` and
`net.DialTimeout("tcp", host, 5s)`. -/
inductive DialKind where
  | tlsDial (insecureSkipVerify : Bool)
  | udpDial
  | tcpDialTimeout
  deriving DecidableEq, Repr

/-- One return of `conn.Read(tmp)`: the bytes `tmp[:n]` and the error. -/
structure ReadResult where
  data : GoString
  err : Option GoString
  deriving DecidableEq, Repr

/-- The network as `querySIP` meets it.  `dial` gives an error or a connection,
of which only the text of the local address matters; `write` is the error of
`conn.Write`; `reads` are the successive returns of `conn.Read`, after the last
of which the read blocks; `elapsed` is `time.Since(start_time)` at the moment
the response is reported. -/
structure SocketNet where
  dial : DialKind → GoString → Except GoString GoString
  write : GoString → Option GoString
  reads : List ReadResult
  elapsed : Nat

/-- The read loop of `querySIP` (the `for` statement that ends the function):
`buf` is the buffer so far, the list holds the returns of `conn.Read` still to
come.  The result is what the loop sends; it sends nothing when the reads run
out before the loop has ended, for it is then blocked in `conn.Read`. -/
def readLoop (elapsed : Nat) : GoString → List ReadResult → List Msg
  | _, [] => []
  | buf, rd :: rest =>
    match rd.err with
    | some err => [Msg.responseErr err]
    | none =>
      let buf := buf ++ rd.data
      if strContains buf "\r\n\r\n".toList || buf.length ≥ 65536 then
        [Msg.response ⟨buf, elapsed⟩]
      else readLoop elapsed buf rest

/-- The function `querySIP`: the messages it sends, in the order of sending. -/
def querySIP (url : URL) (skipVerify : Bool) (net : SocketNet) (r : Rand) : List Msg :=
  let dialed :=
    if url.Scheme = "tls".toList then net.dial (DialKind.tlsDial skipVerify) url.Host
    else if url.Scheme = "udp".toList then net.dial DialKind.udpDial url.Host
    else net.dial DialKind.tcpDialTimeout url.Host
  match dialed with
  | Except.error err => [Msg.responseErr err]
  | Except.ok localAddr =>
    let req := (renderRequest TCP_OPTIONS localAddr url.Scheme r).1
    match net.write req with
    | some err => [Msg.responseErr err]
    | none => Msg.request req :: readLoop net.elapsed [] net.reads

/-- The network as `queryWS` meets it: the error of `sipDialer.Dial(*addr, nil)`
(given the address and `InsecureSkipVerify`), the error of `c.WriteMessage`, and
the return of `c.ReadMessage()`, which is `none` when no frame ever arrives. -/
structure WSNet where
  dial : GoString → Bool → Option GoString
  write : GoString → Option GoString
  read : Option (Except GoString GoString)
  elapsed : Nat

/-- The function `queryWS`: the messages it sends, in the order of sending. -/
def queryWS (url : URL) (addr : GoString) (skipVerify : Bool) (net : WSNet) (r : Rand) :
    List Msg :=
  match net.dial addr skipVerify with
  | some err => [Msg.responseErr err]
  | none =>
    let req := (renderRequest WS_OPTIONS [] url.Scheme r).1
    match net.write req with
    | some err => [Msg.responseErr err]
    | none =>
      Msg.request req ::
        match net.read with
        | none => []
        | some (Except.error err) => [Msg.responseErr err]
        | some (Except.ok message) =>
          [Msg.response ⟨strReplaceAll message "\\r\\n".toList "\r\n".toList, net.elapsed⟩]

/-! ## `lcwlog.go`: the part of the logger that decides how the process ends -/

def FatalLevel : Int := 0
def InfoLevel : Int := 30
def DebugLevel : Int := 50
def defaultLevel : Int := -1

/-- The fields of `fullLCWLogger` that `SetLevel` and `Fatal` read or write;
`logfiles` holds the `logLevel` of every log file. -/
structure Logger where
  currentLevel : Int
  highestLevel : Int
  logfiles : List Int
  deriving DecidableEq, Repr

/-- The method `AddLogFile` as far as the levels go. -/
def AddLogFile (lg : Logger) (logLevel : Int) : Logger :=
  { lg with
    highestLevel := if logLevel > lg.highestLevel then logLevel else lg.highestLevel
    logfiles := lg.logfiles ++ [logLevel] }

/-- The function `GetLogger` on first use: a logger at `InfoLevel` that writes
to `STDOUT` at the default level. -/
def GetLogger : Logger :=
  AddLogFile { currentLevel := InfoLevel, highestLevel := InfoLevel, logfiles := [] } defaultLevel

/-- The method `SetLevel`. -/
def SetLevel (lg : Logger) (level : Int) : Logger :=
  { lg with
    currentLevel := level
    highestLevel := lg.logfiles.foldl (fun hl l => if l > hl then l else hl) level }

/-- The method `Fatal`: the exit code with which it ends the process
(`os.Exit(5)`), or `none` when the level guard fails and it returns. -/
def Fatal (lg : Logger) : Option Nat :=
  if lg.highestLevel ≥ FatalLevel then some 5 else none

/-! ## `main.go`: the select loop of `main` -/

/-- The constant `time.Second`, in nanoseconds. -/
def Second : Nat := 1000000000

/-- The case of the `select` statement that fires. -/
inductive Case where
  | timer
  | responseErr (err : GoString)
  | interrupt
  | request (req : GoString)
  | response (resp : sipResponse)
  deriving DecidableEq, Repr

/-- The case of `select` that receives a message of the strategy. -/
def Case.ofMsg : Msg → Case
  | Msg.request req => Case.request req
  | Msg.response resp => Case.response resp
  | Msg.responseErr err => Case.responseErr err

/-- Why `main` ended: a case of `select`, or the scheme check before it. -/
inductive Cause where
  | timer
  | responseErr (err : GoString)
  | interrupt
  | response (resp : sipResponse)
  | unknownScheme
  deriving DecidableEq, Repr

/-- The end of the process: what ended it, the exit code, whether it ended
inside `log.Fatal`, and the time at which the deciding event was received (in
nanoseconds after `main` first reached its `select`). -/
structure Halt where
  cause : Cause
  code : Nat
  fatal : Bool
  time : Nat
  deriving DecidableEq, Repr

/-- What surrounds the loop of `main`.  `ready i` is the earliest time at which
the strategy can hand over its `i`-th message (its channels are unbuffered, so
the message is received when `main` is in `select`); `logCost` is the time `main`
spends in `log.Info` before it is back at `select`; `pick n` stands for the
pseudo-random choice of Go among the cases that are ready at the same instant
in the `n`-th round of the loop. -/
structure Env where
  ready : Nat → Nat
  logCost : Nat
  pick : Nat → Nat

/-- The messages of the strategy, each with the time at which it is ready. -/
def timedFrom (ready : Nat → Nat) : Nat → List Msg → List (Nat × Msg)
  | _, [] => []
  | i, m :: ms => (ready i, m) :: timedFrom ready (i + 1) ms

/-- One evaluation of `select`, entered at time `now`: the timer of
`time.After(15 * time.Second)` is created on entry and fires at
`now + 15 * Second`; the strategy's next message `head` (with the time at which
it is ready) and a pending interrupt are received at `now` or when they come,
whichever is later.  The earliest case fires; among cases of the same instant
the bits of `coin` choose.  Returns the time and the case. -/
def selectCase (now : Nat) (head : Option (Nat × Msg)) (intr : Option Nat) (coin : Nat) :
    Nat × Case :=
  let best : Nat × Case := (now + 15 * Second, Case.timer)
  let best :=
    match head with
    | some (t, m) =>
      if max t now < best.1 ∨ (max t now = best.1 ∧ coin % 2 = 1) then (max t now, Case.ofMsg m)
      else best
    | none => best
  match intr with
  | some t =>
    if max t now < best.1 ∨ (max t now = best.1 ∧ coin / 2 % 2 = 1) then (max t now, Case.interrupt)
    else best
  | none => best

/-- The loop `for { select { ... } }` of `main`.  `fuel` bounds the number of
rounds, `round` counts them, `now` is the time at which `select` is entered,
`msgs` are the messages of the strategy still to come and `intr` is the time of
a pending interrupt signal. -/
def mainLoop (lg : Logger) (env : Env) :
    Nat → Nat → Nat → List (Nat × Msg) → Option Nat → Option Halt
  | 0, _, _, _, _ => none
  | fuel + 1, round, now, msgs, intr =>
    let sc := selectCase now msgs.head? intr (env.pick round)
    match sc.2 with
    | Case.timer =>
      match Fatal lg with
      | some code => some ⟨Cause.timer, code, true, sc.1⟩
      | none => mainLoop lg env fuel (round + 1) sc.1 msgs intr
    | Case.responseErr err =>
      match Fatal lg with
      | some code => some ⟨Cause.responseErr err, code, true, sc.1⟩
      | none => mainLoop lg env fuel (round + 1) sc.1 msgs.tail intr
    | Case.interrupt =>
      match Fatal lg with
      | some code => some ⟨Cause.interrupt, code, true, sc.1⟩
      | none => mainLoop lg env fuel (round + 1) sc.1 msgs none
    | Case.request _ => mainLoop lg env fuel (round + 1) (sc.1 + env.logCost) msgs.tail intr
    | Case.response resp =>
      if strContains resp.response "SIP/2.0 200 OK".toList then
        some ⟨Cause.response resp, 0, false, sc.1⟩
      else some ⟨Cause.response resp, 1, false, sc.1⟩

/-- Everything outside the program: the two networks (of which `main` uses the
one of the chosen strategy), the random source, the timing and the time of an
interrupt signal, if one comes. -/
structure World where
  socket : SocketNet
  ws : WSNet
  rand : Rand
  env : Env
  interrupt : Option Nat

/-- The function `main` from the point where the flags and the URL are parsed
(`debug`, `addr`, `skipVerify`, `url`): the logger is set to the level that the
flag `debug` asks for, the strategy is chosen by the scheme and the loop runs.
What `main` does before that point (the usage message with `os.Exit(1)` when
`-addr` is empty, the fatal end when the address does not parse) is not part of
this function. -/
def main (fuel : Nat) (debug : Bool) (addr : GoString) (skipVerify : Bool) (url : URL)
    (w : World) : Option Halt :=
  let lg := if debug then SetLevel GetLogger DebugLevel else SetLevel GetLogger InfoLevel
  if url.Scheme = "wss".toList ∨ url.Scheme = "ws".toList then
    mainLoop lg w.env fuel 0 0
      (timedFrom w.env.ready 0 (queryWS url addr skipVerify w.ws w.rand)) w.interrupt
  else if url.Scheme = "udp".toList ∨ url.Scheme = "tcp".toList ∨ url.Scheme = "tls".toList then
    mainLoop lg w.env fuel 0 0
      (timedFrom w.env.ready 0 (querySIP url skipVerify w.socket w.rand)) w.interrupt
  else
    match Fatal lg with
    | some code => some ⟨Cause.unknownScheme, code, true, 0⟩
    | none => mainLoop lg w.env fuel 0 0 [] w.interrupt

/-! ## Reading a rendered message (used to state properties of the wire text) -/

/-- The text made of the given lines, each one closed by CR LF. -/
def joinLines (lines : List GoString) : GoString :=
  (lines.map (fun l => l ++ CRLF)).flatten

/-- Scanning loop of `splitCRLF`: `acc` holds the current line, reversed. -/
def splitCRLFAux : GoString → GoString → List GoString
  | acc, [] => [acc.reverse]
  | acc, [c] => [(c :: acc).reverse]
  | acc, c :: d :: rest =>
    if c = '\r' ∧ d = '\n' then acc.reverse :: splitCRLFAux [] rest
    else splitCRLFAux (c :: acc) (d :: rest)

/-- The pieces of a text between its CR LF terminators, as
`strings.Split(s, "\r\n")` gives them. -/
def splitCRLF (s : GoString) : List GoString := splitCRLFAux [] s

/-- The header lines of a SIP message: the lines after the first one, up to the
empty line. -/
def headerLines (msg : GoString) : List GoString :=
  ((splitCRLF msg).drop 1).takeWhile (fun l => !l.isEmpty)

/-- The name of a header line: what stands in front of the colon. -/
def headerName (line : GoString) : GoString := line.takeWhile (fun c => c != ':')

/-- The value of the first header with the given name. -/
def headerValue (name : GoString) (msg : GoString) : Option GoString :=
  ((headerLines msg).find? (fun l => (name ++ ": ".toList).isPrefixOf l)).map
    (fun l => l.drop (name.length + 2))

/-! ## Notions used in the proofs -/

/-- No occurrence of `old` lies across the border between `a` and `b`: no proper,
non-empty beginning of `old` ends `a` while the rest of `old` begins `b`. -/
def NoCross (old a b : GoString) : Prop :=
  ∀ k, 0 < k → k < old.length → old.take k <:+ a → old.drop k <+: b → False

/-- Decidable form of "no proper non-empty beginning of `old` ends `a`". -/
def sealedBy (old a : GoString) : Bool :=
  (List.range old.length).all (fun k => k == 0 || !(old.take k).isSuffixOf a)

/-- A segment that no occurrence of `old` touches. -/
def Inert (old s : GoString) : Prop :=
  (∀ b, NoCross old s b) ∧ ∀ new, replaceScan old new 0 s = s

/-- Segment by segment, `segs2` is what replacing `old` by `new` makes of
`segs1`: a segment is `old` itself and becomes `new`, or it is inert and stays,
or no occurrence leaves it to the right and it is replaced within. -/
def PassRel (old new : GoString) : List GoString → List GoString → Prop
  | [], [] => True
  | s :: r, s2 :: r2 =>
    ((s = old ∧ s2 = new) ∨ (Inert old s ∧ s2 = s) ∨
      (NoCross old s r.flatten ∧ s2 = replaceScan old new 0 s)) ∧ PassRel old new r r2
  | _, _ => False

/-- The five placeholders of the templates, in the order in which
`renderRequest` replaces them. -/
def phCallId : GoString := "{{callId}}".toList

def phLocalAddr : GoString := "{{localaddr}}".toList

def phPROTOC : GoString := "{{PROTOC}}".toList

def phProto : GoString := "{{proto}}".toList

def phSeq : GoString := "{{seq}}".toList

/-- The line feed that the last replacement of `renderRequest` looks for. -/
def LF : GoString := "\n".toList

/-- The text of `TCP_OPTIONS` between its placeholders, piece by piece. -/
def tcpS0 : GoString := "OPTIONS sip:host@invalid:1739;transport=".toList

def tcpS1 : GoString := " SIP/2.0\nVia: SIP/2.0/".toList

def tcpS2 : GoString := " ".toList

def tcpS3 : GoString :=
  (";branch=z9hG4bKr1t13cmvZDjtg\nMax-Forwards: 70\nFrom: \"\" <sip:monitor@invalid>\n" ++
   "To: <sip:host@invalid;transport=").toList

def tcpS4 : GoString := ">\nCall-ID: ".toList

def tcpS5 : GoString := "\nCSeq: ".toList

def tcpS6 : GoString := " OPTIONS\nContent-Length: 0\n\n".toList

/-- The same pieces with CR LF for LF, as they stand in the rendered request
(the pieces 0 and 2 have no line end and stay as they are). -/
def tcpT1 : GoString := " SIP/2.0\r\nVia: SIP/2.0/".toList

def tcpT3 : GoString :=
  (";branch=z9hG4bKr1t13cmvZDjtg\r\nMax-Forwards: 70\r\nFrom: \"\" <sip:monitor@invalid>\r\n" ++
   "To: <sip:host@invalid;transport=").toList

def tcpT4 : GoString := ">\r\nCall-ID: ".toList

def tcpT5 : GoString := "\r\nCSeq: ".toList

def tcpT6 : GoString := " OPTIONS\r\nContent-Length: 0\r\n\r\n".toList

/-- The text of `WS_OPTIONS` in front of `{{PROTOC}}` and in front of
`{{callId}}`; what follows is as in `TCP_OPTIONS`. -/
def wsS0 : GoString := "OPTIONS sip:monitor@none SIP/2.0\nVia: SIP/2.0/".toList

def wsS1 : GoString :=
  (" 81okseq92jb7.invalid;branch=z9hG4bK5964427\nTo: <sip:ba_user@none>\n" ++
   "From: <sip:anonymous.8scs48@anonymous.invalid>;tag=fql2c8mlg3\nCall-ID: ").toList

/-- The same two pieces with CR LF for LF. -/
def wsT0 : GoString := "OPTIONS sip:monitor@none SIP/2.0\r\nVia: SIP/2.0/".toList

def wsT1 : GoString :=
  (" 81okseq92jb7.invalid;branch=z9hG4bK5964427\r\nTo: <sip:ba_user@none>\r\n" ++
   "From: <sip:anonymous.8scs48@anonymous.invalid>;tag=fql2c8mlg3\r\nCall-ID: ").toList

/-- The characters that `strconv.Itoa` writes for a non-negative number. -/
def decimalDigits : GoString := "0123456789".toList

/-- The schemes for which `main` starts `querySIP`. -/
def socketSchemes : List GoString := ["udp".toList, "tcp".toList, "tls".toList]

/-- The schemes for which `main` starts `queryWS`. -/
def wsSchemes : List GoString := ["ws".toList, "wss".toList]

/-- The text that `main` looks for in a response. -/
def okMarker : GoString := "SIP/2.0 200 OK".toList

/-- The four bytes CR LF CR LF that end a SIP message. -/
def terminator : GoString := "\r\n\r\n".toList

/-- The escaped line end: backslash, `r`, backslash, `n`. -/
def escapedCRLF : GoString := "\\r\\n".toList

/-- A successful return of `conn.Read` with the given bytes. -/
def okRead (data : GoString) : ReadResult := ⟨data, none⟩

/-- The shape of every end of the loop of `main` when `log.Fatal` ends the
process with `code`: either a fatal end on the timer, on an error that the
strategy sent or on a pending interrupt, or a plain exit on a response that the
strategy sent, with 0 or 1 according to the marker. -/
def SoundHalt (h : Halt) (msgs : List (Nat × Msg)) (intr : Option Nat) (code : Nat) : Prop :=
  (h.cause = Cause.timer ∧ h.fatal = true ∧ h.code = code) ∨
  (∃ err, h.cause = Cause.responseErr err ∧ (∃ t, (t, Msg.responseErr err) ∈ msgs) ∧
    h.fatal = true ∧ h.code = code) ∨
  (h.cause = Cause.interrupt ∧ intr.isSome = true ∧ h.fatal = true ∧ h.code = code) ∨
  (∃ resp, h.cause = Cause.response resp ∧ (∃ t, (t, Msg.response resp) ∈ msgs) ∧
    h.fatal = false ∧ h.code = if strContains resp.response okMarker then 0 else 1)

/-! ## Concrete surroundings used in examples -/

/-- A random source for the examples: the bytes 250, 1, 8, 15, ... -/
def exampleRand : Rand := fun i => 7 * i + 250

/-- The URL `tcp://example.org:5060`. -/
def tcpURL : URL := ⟨"tcp".toList, "example.org:5060".toList⟩

/-- The URL `ws://example.org:8080`. -/
def wsURL : URL := ⟨"ws".toList, "example.org:8080".toList⟩

/-- A socket on which dial and write succeed and the reads are as given. -/
def feedSocket (localAddr : GoString) (reads : List ReadResult) (elapsed : Nat) : SocketNet :=
  { dial := fun _ _ => Except.ok localAddr, write := fun _ => none, reads := reads,
    elapsed := elapsed }

/-- A WebSocket network on which dial and write succeed and one frame with the
given payload arrives. -/
def replyWS (message : GoString) (elapsed : Nat) : WSNet :=
  { dial := fun _ _ => none, write := fun _ => none, read := some (Except.ok message),
    elapsed := elapsed }

/-- A WebSocket network that cannot be reached. -/
def idleWS : WSNet :=
  { dial := fun _ _ => some "unreachable".toList, write := fun _ => none, read := none,
    elapsed := 0 }

/-- A response whose first line is `404` and that carries the marker in a later
header. -/
def lateMarkerBody : GoString :=
  "SIP/2.0 404 Not Found\r\nWarning: 399 x \"SIP/2.0 200 OK\"\r\n\r\n".toList

/-- The peer answers with `lateMarkerBody` in one read; the request is sent at
once and the answer is there after two seconds; no interrupt. -/
def lateMarkerWorld : World :=
  { socket := feedSocket "10.0.0.1:5060".toList [okRead lateMarkerBody] 3000000
    ws := idleWS, rand := exampleRand
    env := { ready := fun i => i * (2 * Second), logCost := 0, pick := fun _ => 0 }
    interrupt := none }

/-- The peer never answers; connecting takes four seconds, so that the request
is written (and its event ready) four seconds after `main` started to wait; no
interrupt. -/
def silentWorld : World :=
  { socket := feedSocket "10.0.0.1:5060".toList [] 0
    ws := idleWS, rand := exampleRand
    env := { ready := fun _ => 4 * Second, logCost := 0, pick := fun _ => 0 }
    interrupt := none }

/-- A reply that writes its line ends as escapes. -/
def escapedReply : GoString := "SIP/2.0 200 OK\\r\\nContent-Length: 0\\r\\n\\r\\n".toList

/-- The reply arrives one second after the request was sent; no interrupt. -/
def escapedReplyWorld : World :=
  { socket := feedSocket "10.0.0.1:5060".toList [] 0
    ws := replyWS escapedReply 1000000, rand := exampleRand
    env := { ready := fun i => i * Second, logCost := 0, pick := fun _ => 0 }
    interrupt := none }

/-- Sixteen reads without terminator that fill the buffer up to 65535 bytes:
one of 4095 bytes and fifteen of 4096 bytes. -/
def nearCapChunks : List GoString :=
  List.replicate 4095 'a' :: List.replicate 15 (List.replicate 4096 'a')

/-- A seventeenth read of 4096 bytes. -/
def overCapChunk : GoString := List.replicate 4096 'a'

/-! ## Counting the events of a strategy -/

/-- Whether a message is the "request sent" event. -/
def Msg.isRequest : Msg → Bool
  | Msg.request _ => true
  | _ => false

/-- Whether a message is an outcome event: a response or a transport error. -/
def Msg.isOutcome : Msg → Bool
  | Msg.request _ => false
  | _ => true

/-- The number of "request sent" events among the messages of a strategy. -/
def requestCount (msgs : List Msg) : Nat := msgs.countP Msg.isRequest

/-- The number of outcome events among the messages of a strategy. -/
def outcomeCount (msgs : List Msg) : Nat := msgs.countP Msg.isOutcome

/-- The result of the dial that `querySIP` chooses by the scheme (the value of
`conn, err` when the `if` chain at its head is through). -/
def sipDial (url : URL) (skipVerify : Bool) (net : SocketNet) : Except GoString GoString :=
  if url.Scheme = "tls".toList then net.dial (DialKind.tlsDial skipVerify) url.Host
  else if url.Scheme = "udp".toList then net.dial DialKind.udpDial url.Host
  else net.dial DialKind.tcpDialTimeout url.Host

/-- The test that ends the read loop: the buffer contains CR LF CR LF or has
reached 65536 bytes. -/
def bufferDone (buf : GoString) : Prop :=
  strContains buf terminator = true ∨ buf.length ≥ 65536

/-- The reads bring the loop, started with the buffer `buf`, to an end: one of
them returns an error, or the bytes read up to and including one of them make
the buffer done. -/
def Decisive (buf : GoString) (reads : List ReadResult) : Prop :=
  ∃ pre rd post, reads = pre ++ rd :: post ∧
    (rd.err.isSome = true ∨
      bufferDone (buf ++ ((pre ++ [rd]).map (fun x => x.data)).flatten))

/-- The four shapes that the messages of a strategy can have. -/
def EventShape (msgs : List Msg) : Prop :=
  (∃ err, msgs = [Msg.responseErr err]) ∨
  (∃ req, msgs = [Msg.request req]) ∨
  (∃ req err, msgs = [Msg.request req, Msg.responseErr err]) ∨
  (∃ req resp, msgs = [Msg.request req, Msg.response resp])

/-- A WebSocket network on which dial and write succeed and no frame ever
arrives. -/
def silentWS : WSNet :=
  { dial := fun _ _ => none, write := fun _ => none, read := none, elapsed := 0 }

/-- A provisional answer without the empty line that ends a message. -/
def tryingChunk : GoString := "SIP/2.0 100 Trying\r\n".toList

/-! ## Facts about the library functions -/

theorem replaceScan_nil (old new : GoString) (k : Nat) : replaceScan old new k [] = [] := by
  cases k <;> rfl

theorem replaceScan_skip (old new : GoString) :
    ∀ (s : GoString) (k : Nat), replaceScan old new k s = replaceScan old new 0 (s.drop k)
  | [], k => by simp [replaceScan_nil]
  | _ :: _, 0 => by simp
  | _ :: cs, k + 1 => by
    rw [replaceScan, replaceScan_skip old new cs k]
    simp

theorem replaceScan_cons (old new : GoString) (hold : old ≠ []) (c : Char) (cs : GoString) :
    replaceScan old new 0 (c :: cs) =
      if old.isPrefixOf (c :: cs) then new ++ replaceScan old new 0 ((c :: cs).drop old.length)
      else c :: replaceScan old new 0 cs := by
  rw [replaceScan, replaceScan_skip old new cs (old.length - 1)]
  obtain ⟨h, t, rfl⟩ := List.exists_cons_of_ne_nil hold
  simp

theorem NoCross.of_suffix {old a a1 b : GoString} (h : NoCross old a b) (hs : a1 <:+ a) :
    NoCross old a1 b :=
  fun k h0 hk h1 h2 => h k h0 hk (h1.trans hs) h2

theorem prefix_left_of_noCross {old a b : GoString} (ha : a ≠ []) (h : NoCross old a b)
    (hp : old <+: a ++ b) : old <+: a := by
  by_contra hna
  have hlen : a.length < old.length := by
    by_contra hle
    exact hna (List.prefix_of_prefix_length_le hp (List.prefix_append a b) (by omega))
  have hpos : 0 < a.length := List.length_pos.mpr ha
  have htake : old.take a.length = a := by
    have h1 := List.prefix_iff_eq_take.mp hp
    have h2 : List.take a.length old = List.take a.length (List.take old.length (a ++ b)) := by
      rw [← h1]
    rw [h2, List.take_take, Nat.min_eq_left (by omega), List.take_left]
  refine h a.length hpos hlen (by rw [htake]) ?_
  obtain ⟨t, ht⟩ := hp
  have h3 : a ++ (old.drop a.length ++ t) = a ++ b := by
    have h4 : a ++ old.drop a.length = old := by
      have h5 := List.take_append_drop a.length old
      rwa [htake] at h5
    rw [← List.append_assoc, h4, ht]
  exact ⟨t, List.append_cancel_left h3⟩

theorem replaceScan_append_aux (old new : GoString) (hold : old ≠ []) :
    ∀ (n : Nat) (a b : GoString), a.length ≤ n → NoCross old a b →
      replaceScan old new 0 (a ++ b) = replaceScan old new 0 a ++ replaceScan old new 0 b := by
  intro n
  induction n with
  | zero =>
    intro a b ha _
    have : a = [] := List.length_eq_zero.mp (by omega)
    subst this
    simp [replaceScan_nil]
  | succ n ih =>
    intro a b ha hc
    cases a with
    | nil => simp [replaceScan_nil]
    | cons c cs =>
      have oldpos : 0 < old.length := List.length_pos.mpr hold
      rw [List.cons_append, replaceScan_cons old new hold, replaceScan_cons old new hold]
      by_cases hp : old <+: c :: (cs ++ b)
      · have hp1 : old <+: c :: cs :=
          prefix_left_of_noCross (by simp) hc (by simpa using hp)
        have hle : old.length ≤ (c :: cs).length := hp1.length_le
        rw [if_pos (List.isPrefixOf_iff_prefix.mpr hp), if_pos (List.isPrefixOf_iff_prefix.mpr hp1)]
        rw [← List.cons_append, List.drop_append_of_le_length hle]
        rw [ih _ b (by simp only [List.length_drop, List.length_cons] at *; omega)
          (hc.of_suffix (List.drop_suffix _ _))]
        simp
      · have hp1 : ¬ old <+: c :: cs := fun h =>
          hp (by simpa using h.trans (List.prefix_append (c :: cs) b))
        rw [if_neg (by rwa [List.isPrefixOf_iff_prefix]),
          if_neg (by rwa [List.isPrefixOf_iff_prefix])]
        rw [ih cs b (by simp at ha; omega) (hc.of_suffix (List.suffix_cons c cs))]
        simp

theorem replaceScan_append {old new : GoString} (hold : old ≠ []) {a b : GoString}
    (hc : NoCross old a b) :
    replaceScan old new 0 (a ++ b) = replaceScan old new 0 a ++ replaceScan old new 0 b :=
  replaceScan_append_aux old new hold a.length a b (le_refl _) hc


theorem noCross_of_head {h : Char} {t a : GoString} (b : GoString) (ha : h ∉ a) :
    NoCross (h :: t) a b := by
  intro k h0 _ hs _
  obtain ⟨j, rfl⟩ := Nat.exists_eq_succ_of_ne_zero (Nat.pos_iff_ne_zero.mp h0)
  rw [List.take_succ_cons] at hs
  exact ha (hs.subset (List.mem_cons_self _ _))

theorem noCross_of_next {old b : GoString} {x : Char} (a : GoString) (hx : x ∉ old) :
    NoCross old a (x :: b) := by
  intro k _ hk _ hp
  have hne : old.drop k ≠ [] := by
    intro h
    have := congrArg List.length h
    simp at this
    omega
  obtain ⟨y, ys, hy⟩ := List.exists_cons_of_ne_nil hne
  rw [hy] at hp
  have hxy : y = x := by
    obtain ⟨t, ht⟩ := hp
    simp at ht
    exact ht.1
  have : y ∈ old.drop k := by rw [hy]; exact List.mem_cons_self _ _
  exact hx (hxy ▸ List.mem_of_mem_drop this)

theorem noCross_of_sealedBy {old a : GoString} (b : GoString) (h : sealedBy old a = true) :
    NoCross old a b := by
  intro k h0 hk hs _
  simp only [sealedBy, List.all_eq_true, List.mem_range] at h
  have := h k hk
  simp only [Bool.or_eq_true, beq_iff_eq, Bool.not_eq_true', List.isSuffixOf_iff_suffix] at this
  rcases this with h1 | h1
  · omega
  · have h2 := List.isSuffixOf_iff_suffix.mpr hs
    rw [h1] at h2
    exact Bool.noConfusion h2

theorem replaceScan_id_of_not_mem {old : GoString} (new : GoString) {x : Char} (hx : x ∈ old) :
    ∀ s : GoString, x ∉ s → replaceScan old new 0 s = s
  | [], _ => rfl
  | c :: cs, hs => by
    have hold : old ≠ [] := List.ne_nil_of_mem hx
    rw [replaceScan_cons old new hold]
    have hp : ¬ old <+: c :: cs := fun hp => hs (hp.subset hx)
    rw [if_neg (by rwa [List.isPrefixOf_iff_prefix])]
    rw [replaceScan_id_of_not_mem new hx cs (fun h => hs (List.mem_cons_of_mem _ h))]

theorem strContains_false_cons {c : Char} {cs sub : GoString}
    (h : strContains (c :: cs) sub = false) :
    sub.isPrefixOf (c :: cs) = false ∧ strContains cs sub = false := by
  simpa [strContains] using h

theorem replaceScan_id_of_not_contains {old : GoString} (new : GoString) (hold : old ≠ []) :
    ∀ s : GoString, strContains s old = false → replaceScan old new 0 s = s
  | [], _ => rfl
  | c :: cs, hs => by
    obtain ⟨h1, h2⟩ := strContains_false_cons hs
    rw [replaceScan_cons old new hold, h1]
    simp [replaceScan_id_of_not_contains new hold cs h2]

theorem mem_replaceScan {old new : GoString} {x : Char} :
    ∀ (s : GoString) (k : Nat), x ∈ replaceScan old new k s → x ∈ s ∨ x ∈ new
  | [], k, h => by simp [replaceScan_nil] at h
  | c :: cs, k + 1, h => by
    rw [replaceScan] at h
    rcases mem_replaceScan cs k h with h | h
    · exact Or.inl (List.mem_cons_of_mem _ h)
    · exact Or.inr h
  | c :: cs, 0, h => by
    rw [replaceScan] at h
    split at h
    · rcases List.mem_append.mp h with h | h
      · exact Or.inr h
      · rcases mem_replaceScan cs _ h with h | h
        · exact Or.inl (List.mem_cons_of_mem _ h)
        · exact Or.inr h
    · rcases List.mem_cons.mp h with h | h
      · exact Or.inl (h ▸ List.mem_cons_self _ _)
      · rcases mem_replaceScan cs 0 h with h | h
        · exact Or.inl (List.mem_cons_of_mem _ h)
        · exact Or.inr h


theorem noCross_of_first {old a : GoString} {h : Char} (b : GoString)
    (hh : old.head? = some h) (ha : h ∉ a) : NoCross old a b := by
  cases old with
  | nil => simp at hh
  | cons x t =>
    simp at hh
    subst hh
    exact noCross_of_head b ha

theorem noCross_of_follow {old b : GoString} {x : Char} (a : GoString)
    (hb : b.head? = some x) (hx : x ∉ old) : NoCross old a b := by
  cases b with
  | nil => simp at hb
  | cons y t =>
    simp at hb
    subst hb
    exact noCross_of_next a hx

theorem inert_of_check {old s : GoString} (hold : old ≠ []) (h1 : sealedBy old s = true)
    (h2 : strContains s old = false) : Inert old s :=
  ⟨fun b => noCross_of_sealedBy b h1, fun new => replaceScan_id_of_not_contains new hold s h2⟩

theorem inert_of_first {old s : GoString} {h : Char} (hh : old.head? = some h) (hs : h ∉ s) :
    Inert old s :=
  ⟨fun b => noCross_of_first b hh hs,
    fun new => replaceScan_id_of_not_mem new (List.mem_of_mem_head? hh) s hs⟩

theorem replaceScan_old_append (old new : GoString) (hold : old ≠ []) (b : GoString) :
    replaceScan old new 0 (old ++ b) = new ++ replaceScan old new 0 b := by
  obtain ⟨h, t, rfl⟩ := List.exists_cons_of_ne_nil hold
  rw [List.cons_append, replaceScan_cons _ new hold]
  have : (h :: t) <+: h :: (t ++ b) := List.prefix_append (h :: t) b
  rw [if_pos (List.isPrefixOf_iff_prefix.mpr this)]
  simp

theorem noCross_of_short {old : GoString} (a b : GoString) (h : old.length ≤ 1) :
    NoCross old a b := by
  intro k h0 hk _ _
  omega

theorem replace_pass {old : GoString} (new : GoString) (hold : old ≠ []) :
    ∀ segs1 segs2 : List GoString, PassRel old new segs1 segs2 →
      replaceScan old new 0 segs1.flatten = segs2.flatten
  | [], [], _ => rfl
  | [], _ :: _, h => h.elim
  | _ :: _, [], h => h.elim
  | s :: r, s2 :: r2, h => by
    have ih := replace_pass new hold r r2 h.2
    rw [List.flatten_cons, List.flatten_cons]
    rcases h.1 with ⟨h1, h2⟩ | ⟨h1, h2⟩ | ⟨h1, h2⟩
    · rw [h1, h2, replaceScan_old_append old new hold, ih]
    · rw [h2, replaceScan_append hold (h1.1 _), h1.2 new, ih]
    · rw [h2, replaceScan_append hold h1, ih]

set_option maxRecDepth 100000 in
theorem TCP_OPTIONS_segments :
    TCP_OPTIONS = List.flatten [tcpS0, phProto, tcpS1, phPROTOC, tcpS2, phLocalAddr, tcpS3,
      phProto, tcpS4, phCallId, tcpS5, phSeq, tcpS6] := by
  decide

theorem strReplaceAll_eq (s : GoString) {old : GoString} (new : GoString) (hold : old ≠ []) :
    strReplaceAll s old new = replaceScan old new 0 s := by
  simp [strReplaceAll, hold]

theorem not_mem_replaceScan {old new s : GoString} {x : Char} (hs : x ∉ s) (hn : x ∉ new) :
    x ∉ replaceScan old new 0 s := fun h =>
  (mem_replaceScan s 0 h).elim hs hn

set_option maxRecDepth 100000 in
/-- The six substitutions of `renderRequest` on the socket template. -/
theorem tcp_six_passes (la U L cid D : GoString)
    (hla : '\n' ∉ la)
    (hU1 : '{' ∉ U) (hU2 : '\n' ∉ U) (hL1 : '{' ∉ L) (hL2 : '\n' ∉ L)
    (hc1 : '{' ∉ cid) (hc2 : '\n' ∉ cid) (hD2 : '\n' ∉ D) :
    strReplaceAll (strReplaceAll (strReplaceAll (strReplaceAll (strReplaceAll
      (strReplaceAll TCP_OPTIONS phCallId cid) phLocalAddr la) phPROTOC U) phProto L)
      phSeq D) LF CRLF =
    List.flatten [tcpS0, L, tcpT1, U, tcpS2,
      replaceScan phSeq D 0 (replaceScan phProto L 0 (replaceScan phPROTOC U 0 la)),
      tcpT3, L, tcpT4, cid, tcpT5, D, tcpT6] := by
  have hla1 : '\n' ∉ replaceScan phPROTOC U 0 la := not_mem_replaceScan hla hU2
  have hla2 : '\n' ∉ replaceScan phProto L 0 (replaceScan phPROTOC U 0 la) :=
    not_mem_replaceScan hla1 hL2
  have hla3 : '\n' ∉ replaceScan phSeq D 0 (replaceScan phProto L 0
      (replaceScan phPROTOC U 0 la)) := not_mem_replaceScan hla2 hD2
  rw [strReplaceAll_eq _ _ (by decide), strReplaceAll_eq _ _ (by decide),
    strReplaceAll_eq _ _ (by decide), strReplaceAll_eq _ _ (by decide),
    strReplaceAll_eq _ _ (by decide), strReplaceAll_eq _ _ (by decide)]
  rw [TCP_OPTIONS_segments]
  rw [replace_pass cid (by decide) _ [tcpS0, phProto, tcpS1, phPROTOC, tcpS2, phLocalAddr, tcpS3,
      phProto, tcpS4, cid, tcpS5, phSeq, tcpS6] (by
    refine ⟨?_, ?_, ?_, ?_, ?_, ?_, ?_, ?_, ?_, ?_, ?_, ?_, ?_, trivial⟩ <;>
    first
    | exact Or.inl ⟨rfl, rfl⟩
    | exact Or.inr (Or.inl ⟨inert_of_check (by decide) (by decide) (by decide), rfl⟩))]
  rw [replace_pass la (by decide) _ [tcpS0, phProto, tcpS1, phPROTOC, tcpS2, la, tcpS3,
      phProto, tcpS4, cid, tcpS5, phSeq, tcpS6] (by
    refine ⟨?_, ?_, ?_, ?_, ?_, ?_, ?_, ?_, ?_, ?_, ?_, ?_, ?_, trivial⟩ <;>
    first
    | exact Or.inl ⟨rfl, rfl⟩
    | exact Or.inr (Or.inl ⟨inert_of_check (by decide) (by decide) (by decide), rfl⟩)
    | exact Or.inr (Or.inl ⟨inert_of_first rfl (by assumption), rfl⟩))]
  rw [replace_pass U (by decide) _ [tcpS0, phProto, tcpS1, U, tcpS2,
      replaceScan phPROTOC U 0 la, tcpS3,
      phProto, tcpS4, cid, tcpS5, phSeq, tcpS6] (by
    refine ⟨?_, ?_, ?_, ?_, ?_, ?_, ?_, ?_, ?_, ?_, ?_, ?_, ?_, trivial⟩ <;>
    first
    | exact Or.inl ⟨rfl, rfl⟩
    | exact Or.inr (Or.inl ⟨inert_of_check (by decide) (by decide) (by decide), rfl⟩)
    | exact Or.inr (Or.inl ⟨inert_of_first rfl (by assumption), rfl⟩)
    | exact Or.inr (Or.inr ⟨noCross_of_follow _ rfl (by decide), rfl⟩))]
  rw [replace_pass L (by decide) _ [tcpS0, L, tcpS1, U, tcpS2,
      replaceScan phProto L 0 (replaceScan phPROTOC U 0 la), tcpS3,
      L, tcpS4, cid, tcpS5, phSeq, tcpS6] (by
    refine ⟨?_, ?_, ?_, ?_, ?_, ?_, ?_, ?_, ?_, ?_, ?_, ?_, ?_, trivial⟩ <;>
    first
    | exact Or.inl ⟨rfl, rfl⟩
    | exact Or.inr (Or.inl ⟨inert_of_check (by decide) (by decide) (by decide), rfl⟩)
    | exact Or.inr (Or.inl ⟨inert_of_first rfl (by assumption), rfl⟩)
    | exact Or.inr (Or.inr ⟨noCross_of_follow _ rfl (by decide), rfl⟩))]
  rw [replace_pass D (by decide) _ [tcpS0, L, tcpS1, U, tcpS2,
      replaceScan phSeq D 0 (replaceScan phProto L 0 (replaceScan phPROTOC U 0 la)), tcpS3,
      L, tcpS4, cid, tcpS5, D, tcpS6] (by
    refine ⟨?_, ?_, ?_, ?_, ?_, ?_, ?_, ?_, ?_, ?_, ?_, ?_, ?_, trivial⟩ <;>
    first
    | exact Or.inl ⟨rfl, rfl⟩
    | exact Or.inr (Or.inl ⟨inert_of_check (by decide) (by decide) (by decide), rfl⟩)
    | exact Or.inr (Or.inl ⟨inert_of_first rfl (by assumption), rfl⟩)
    | exact Or.inr (Or.inr ⟨noCross_of_follow _ rfl (by decide), rfl⟩))]
  exact replace_pass CRLF (by decide) _ _ (by
    refine ⟨?_, ?_, ?_, ?_, ?_, ?_, ?_, ?_, ?_, ?_, ?_, ?_, ?_, trivial⟩ <;>
    first
    | exact Or.inr (Or.inl ⟨inert_of_first rfl (by assumption), rfl⟩)
    | exact Or.inr (Or.inr ⟨noCross_of_short _ _ (by decide), by decide⟩))

set_option maxRecDepth 100000 in
theorem WS_OPTIONS_segments :
    WS_OPTIONS = List.flatten [wsS0, phPROTOC, wsS1, phCallId, tcpS5, phSeq, tcpS6] := by
  decide

set_option maxRecDepth 100000 in
/-- The six substitutions of `renderRequest` on the WebSocket template. -/
theorem ws_six_passes (la U L cid D : GoString)
    (hU1 : '{' ∉ U) (hU2 : '\n' ∉ U)
    (hc1 : '{' ∉ cid) (hc2 : '\n' ∉ cid) (hD2 : '\n' ∉ D) :
    strReplaceAll (strReplaceAll (strReplaceAll (strReplaceAll (strReplaceAll
      (strReplaceAll WS_OPTIONS phCallId cid) phLocalAddr la) phPROTOC U) phProto L)
      phSeq D) LF CRLF =
    List.flatten [wsT0, U, wsT1, cid, tcpT5, D, tcpT6] := by
  rw [strReplaceAll_eq _ _ (by decide), strReplaceAll_eq _ _ (by decide),
    strReplaceAll_eq _ _ (by decide), strReplaceAll_eq _ _ (by decide),
    strReplaceAll_eq _ _ (by decide), strReplaceAll_eq _ _ (by decide)]
  rw [WS_OPTIONS_segments]
  rw [replace_pass cid (by decide) _ [wsS0, phPROTOC, wsS1, cid, tcpS5, phSeq, tcpS6] (by
    refine ⟨?_, ?_, ?_, ?_, ?_, ?_, ?_, trivial⟩ <;>
    first
    | exact Or.inl ⟨rfl, rfl⟩
    | exact Or.inr (Or.inl ⟨inert_of_check (by decide) (by decide) (by decide), rfl⟩))]
  rw [replace_pass la (by decide) _ [wsS0, phPROTOC, wsS1, cid, tcpS5, phSeq, tcpS6] (by
    refine ⟨?_, ?_, ?_, ?_, ?_, ?_, ?_, trivial⟩ <;>
    first
    | exact Or.inr (Or.inl ⟨inert_of_check (by decide) (by decide) (by decide), rfl⟩)
    | exact Or.inr (Or.inl ⟨inert_of_first rfl (by assumption), rfl⟩))]
  rw [replace_pass U (by decide) _ [wsS0, U, wsS1, cid, tcpS5, phSeq, tcpS6] (by
    refine ⟨?_, ?_, ?_, ?_, ?_, ?_, ?_, trivial⟩ <;>
    first
    | exact Or.inl ⟨rfl, rfl⟩
    | exact Or.inr (Or.inl ⟨inert_of_check (by decide) (by decide) (by decide), rfl⟩)
    | exact Or.inr (Or.inl ⟨inert_of_first rfl (by assumption), rfl⟩))]
  rw [replace_pass L (by decide) _ [wsS0, U, wsS1, cid, tcpS5, phSeq, tcpS6] (by
    refine ⟨?_, ?_, ?_, ?_, ?_, ?_, ?_, trivial⟩ <;>
    first
    | exact Or.inr (Or.inl ⟨inert_of_check (by decide) (by decide) (by decide), rfl⟩)
    | exact Or.inr (Or.inl ⟨inert_of_first rfl (by assumption), rfl⟩))]
  rw [replace_pass D (by decide) _ [wsS0, U, wsS1, cid, tcpS5, D, tcpS6] (by
    refine ⟨?_, ?_, ?_, ?_, ?_, ?_, ?_, trivial⟩ <;>
    first
    | exact Or.inl ⟨rfl, rfl⟩
    | exact Or.inr (Or.inl ⟨inert_of_check (by decide) (by decide) (by decide), rfl⟩)
    | exact Or.inr (Or.inl ⟨inert_of_first rfl (by assumption), rfl⟩))]
  exact replace_pass CRLF (by decide) _ _ (by
    refine ⟨?_, ?_, ?_, ?_, ?_, ?_, ?_, trivial⟩ <;>
    first
    | exact Or.inr (Or.inl ⟨inert_of_first rfl (by assumption), rfl⟩)
    | exact Or.inr (Or.inr ⟨noCross_of_short _ _ (by decide), by decide⟩))

/-! ### Random call identifiers, sequence numbers and scheme names -/

theorem randString_fst (n : Nat) (r : Rand) :
    (randString n r).1 = (List.range n).map (fun i => alphanumAt (r i % 256)) := by
  simp [randString, randRead, List.map_map, Function.comp_def]

theorem alphanumAt_mem (b : Nat) : alphanumAt b ∈ alphanum := by
  unfold alphanumAt
  exact List.get_mem _ _ _

theorem mem_randString {n : Nat} {r : Rand} {c : Char} (h : c ∈ (randString n r).1) :
    c ∈ alphanum := by
  rw [randString_fst] at h
  obtain ⟨i, _, rfl⟩ := List.mem_map.mp h
  exact alphanumAt_mem _

theorem randString_length (n : Nat) (r : Rand) : (randString n r).1.length = n := by
  simp [randString_fst]

theorem randString_plain (n : Nat) (r : Rand) :
    '{' ∉ (randString n r).1 ∧ '\n' ∉ (randString n r).1 ∧ '\r' ∉ (randString n r).1 := by
  refine ⟨fun h => ?_, fun h => ?_, fun h => ?_⟩ <;>
    exact absurd (mem_randString h) (by decide)

theorem toDigitsCore_mem :
    ∀ (fuel n : Nat) (ds : List Char), (∀ c ∈ ds, c ∈ decimalDigits) →
      ∀ c ∈ Nat.toDigitsCore 10 fuel n ds, c ∈ decimalDigits
  | 0, _, ds, h => by simpa [Nat.toDigitsCore] using h
  | fuel + 1, n, ds, h => by
    have hd : Nat.digitChar (n % 10) ∈ decimalDigits := by
      have : n % 10 < 10 := Nat.mod_lt _ (by decide)
      revert this
      generalize n % 10 = k
      intro hk
      interval_cases k <;> decide
    have h2 : ∀ c ∈ Nat.digitChar (n % 10) :: ds, c ∈ decimalDigits := by
      intro c hc
      rcases List.mem_cons.mp hc with rfl | hc
      · exact hd
      · exact h c hc
    rw [Nat.toDigitsCore]
    split
    · exact h2
    · exact toDigitsCore_mem fuel (n / 10) _ h2

theorem mem_itoa {n : Nat} {c : Char} (h : c ∈ itoa n) : c ∈ decimalDigits :=
  toDigitsCore_mem _ _ [] (by simp) c h

theorem itoa_plain (n : Nat) : '{' ∉ itoa n ∧ '\n' ∉ itoa n ∧ '\r' ∉ itoa n := by
  refine ⟨fun h => ?_, fun h => ?_, fun h => ?_⟩ <;>
    exact absurd (mem_itoa h) (by decide)


theorem renderRequest_fst (options la protocol : GoString) (r : Rand) :
    (renderRequest options la protocol r).1 =
      strReplaceAll (strReplaceAll (strReplaceAll (strReplaceAll (strReplaceAll
        (strReplaceAll options phCallId (randString 20 (randRead 2 r).2).1) phLocalAddr la)
        phPROTOC (strToUpper protocol)) phProto (strToLower protocol))
        phSeq (itoa (256 * (r 0 % 256) + r 1 % 256))) LF CRLF := rfl

theorem scheme_plain {p : GoString} (hp : p ∈ socketSchemes ∨ p ∈ wsSchemes) :
    ('{' ∉ strToUpper p ∧ '\n' ∉ strToUpper p) ∧ ('{' ∉ strToLower p ∧ '\n' ∉ strToLower p) := by
  simp only [socketSchemes, wsSchemes, List.mem_cons, List.mem_singleton, List.not_mem_nil,
    or_false] at hp
  rcases hp with (rfl | rfl | rfl) | (rfl | rfl) <;> decide

/-- The request of the socket strategies, segment by segment. -/
theorem tcp_render_segments (la p : GoString) (r : Rand) (hp : p ∈ socketSchemes)
    (hla : '\n' ∉ la) :
    (renderRequest TCP_OPTIONS la p r).1 =
      List.flatten [tcpS0, strToLower p, tcpT1, strToUpper p, tcpS2,
        replaceScan phSeq (itoa (256 * (r 0 % 256) + r 1 % 256)) 0
          (replaceScan phProto (strToLower p) 0 (replaceScan phPROTOC (strToUpper p) 0 la)),
        tcpT3, strToLower p, tcpT4, (randString 20 (randRead 2 r).2).1, tcpT5,
        itoa (256 * (r 0 % 256) + r 1 % 256), tcpT6] := by
  obtain ⟨⟨hU1, hU2⟩, hL1, hL2⟩ := scheme_plain (Or.inl hp)
  rw [renderRequest_fst]
  exact tcp_six_passes la _ _ _ _ hla hU1 hU2 hL1 hL2 (randString_plain _ _).1
    (randString_plain _ _).2.1 (itoa_plain _).2.1

/-- The request of the WebSocket strategy, segment by segment. -/
theorem ws_render_segments (la p : GoString) (r : Rand) (hp : p ∈ wsSchemes) :
    (renderRequest WS_OPTIONS la p r).1 =
      List.flatten [wsT0, strToUpper p, wsT1, (randString 20 (randRead 2 r).2).1, tcpT5,
        itoa (256 * (r 0 % 256) + r 1 % 256), tcpT6] := by
  obtain ⟨⟨hU1, hU2⟩, _, _⟩ := scheme_plain (Or.inr hp)
  rw [renderRequest_fst]
  exact ws_six_passes la _ _ _ _ hU1 hU2 (randString_plain _ _).1
    (randString_plain _ _).2.1 (itoa_plain _).2.1

theorem tcp_render_lines_any (la p : GoString) (r : Rand) (hp : p ∈ socketSchemes)
    (hla : '\n' ∉ la) :
    (renderRequest TCP_OPTIONS la p r).1 =
      joinLines [
        "OPTIONS sip:host@invalid:1739;transport=".toList ++ strToLower p ++ " SIP/2.0".toList,
        "Via: SIP/2.0/".toList ++ strToUpper p ++ " ".toList ++
          replaceScan phSeq (itoa (256 * (r 0 % 256) + r 1 % 256)) 0
            (replaceScan phProto (strToLower p) 0 (replaceScan phPROTOC (strToUpper p) 0 la)) ++
          ";branch=z9hG4bKr1t13cmvZDjtg".toList,
        "Max-Forwards: 70".toList,
        "From: \"\" <sip:monitor@invalid>".toList,
        "To: <sip:host@invalid;transport=".toList ++ strToLower p ++ ">".toList,
        "Call-ID: ".toList ++ (randString 20 (randRead 2 r).2).1,
        "CSeq: ".toList ++ itoa (256 * (r 0 % 256) + r 1 % 256) ++ " OPTIONS".toList,
        "Content-Length: 0".toList,
        []] := by
  rw [tcp_render_segments la p r hp hla]
  have e1 : tcpT1 = " SIP/2.0".toList ++ CRLF ++ "Via: SIP/2.0/".toList := by decide
  have e3 : tcpT3 = ";branch=z9hG4bKr1t13cmvZDjtg".toList ++ CRLF ++ "Max-Forwards: 70".toList ++
      CRLF ++ "From: \"\" <sip:monitor@invalid>".toList ++ CRLF ++
      "To: <sip:host@invalid;transport=".toList := by decide
  have e4 : tcpT4 = ">".toList ++ CRLF ++ "Call-ID: ".toList := by decide
  have e5 : tcpT5 = CRLF ++ "CSeq: ".toList := by decide
  have e6 : tcpT6 = " OPTIONS".toList ++ CRLF ++ "Content-Length: 0".toList ++ CRLF ++ CRLF := by
    decide
  have e0 : tcpS0 = "OPTIONS sip:host@invalid:1739;transport=".toList := rfl
  have e2 : tcpS2 = " ".toList := rfl
  rw [e0, e1, e2, e3, e4, e5, e6]
  simp only [joinLines, List.map_cons, List.map_nil, List.flatten_cons, List.flatten_nil,
    List.append_assoc, List.append_nil, List.nil_append]

theorem tcp_render_lines (la p : GoString) (r : Rand) (hp : p ∈ socketSchemes)
    (hla1 : '{' ∉ la) (hla2 : '\n' ∉ la) :
    (renderRequest TCP_OPTIONS la p r).1 =
      joinLines [
        "OPTIONS sip:host@invalid:1739;transport=".toList ++ strToLower p ++ " SIP/2.0".toList,
        "Via: SIP/2.0/".toList ++ strToUpper p ++ " ".toList ++ la ++
          ";branch=z9hG4bKr1t13cmvZDjtg".toList,
        "Max-Forwards: 70".toList,
        "From: \"\" <sip:monitor@invalid>".toList,
        "To: <sip:host@invalid;transport=".toList ++ strToLower p ++ ">".toList,
        "Call-ID: ".toList ++ (randString 20 (randRead 2 r).2).1,
        "CSeq: ".toList ++ itoa (256 * (r 0 % 256) + r 1 % 256) ++ " OPTIONS".toList,
        "Content-Length: 0".toList,
        []] := by
  rw [tcp_render_lines_any la p r hp hla2]
  rw [replaceScan_id_of_not_mem _ (x := '{') (by decide) la hla1,
    replaceScan_id_of_not_mem _ (x := '{') (by decide) la hla1,
    replaceScan_id_of_not_mem _ (x := '{') (by decide) la hla1]

theorem ws_render_lines (la p : GoString) (r : Rand) (hp : p ∈ wsSchemes) :
    (renderRequest WS_OPTIONS la p r).1 =
      joinLines [
        "OPTIONS sip:monitor@none SIP/2.0".toList,
        "Via: SIP/2.0/".toList ++ strToUpper p ++
          " 81okseq92jb7.invalid;branch=z9hG4bK5964427".toList,
        "To: <sip:ba_user@none>".toList,
        "From: <sip:anonymous.8scs48@anonymous.invalid>;tag=fql2c8mlg3".toList,
        "Call-ID: ".toList ++ (randString 20 (randRead 2 r).2).1,
        "CSeq: ".toList ++ itoa (256 * (r 0 % 256) + r 1 % 256) ++ " OPTIONS".toList,
        "Content-Length: 0".toList,
        []] := by
  rw [ws_render_segments la p r hp]
  have e0 : wsT0 = "OPTIONS sip:monitor@none SIP/2.0".toList ++ CRLF ++
      "Via: SIP/2.0/".toList := by decide
  have e1 : wsT1 = " 81okseq92jb7.invalid;branch=z9hG4bK5964427".toList ++ CRLF ++
      "To: <sip:ba_user@none>".toList ++ CRLF ++
      "From: <sip:anonymous.8scs48@anonymous.invalid>;tag=fql2c8mlg3".toList ++ CRLF ++
      "Call-ID: ".toList := by decide
  have e5 : tcpT5 = CRLF ++ "CSeq: ".toList := by decide
  have e6 : tcpT6 = " OPTIONS".toList ++ CRLF ++ "Content-Length: 0".toList ++ CRLF ++ CRLF := by
    decide
  rw [e0, e1, e5, e6]
  simp only [joinLines, List.map_cons, List.map_nil, List.flatten_cons, List.flatten_nil,
    List.append_assoc, List.append_nil, List.nil_append]

/-! ## The select loop -/

theorem mainLoop_mono (lg : Logger) (env : Env) :
    ∀ (fuel round now : Nat) (msgs : List (Nat × Msg)) (intr : Option Nat) (h : Halt),
      mainLoop lg env fuel round now msgs intr = some h →
      ∀ k, mainLoop lg env (fuel + k) round now msgs intr = some h := by
  intro fuel
  induction fuel with
  | zero => intro round now msgs intr h hh; simp [mainLoop] at hh
  | succ fuel ih =>
    intro round now msgs intr h hh k
    rw [Nat.add_right_comm]
    rw [mainLoop] at hh ⊢
    split
    · split
      · simp_all
      · simp_all
    · split
      · simp_all
      · simp_all
    · split
      · simp_all
      · simp_all
    · simp_all
    · simp_all

theorem selectCase_cases (now : Nat) (head : Option (Nat × Msg)) (intr : Option Nat)
    (coin : Nat) :
    (selectCase now head intr coin).2 = Case.timer ∨
    (∃ t m, head = some (t, m) ∧ (selectCase now head intr coin).2 = Case.ofMsg m) ∨
    (intr.isSome = true ∧ (selectCase now head intr coin).2 = Case.interrupt) := by
  unfold selectCase
  rcases head with _ | ⟨t, m⟩ <;> rcases intr with _ | ti <;> dsimp only
  · exact Or.inl rfl
  · split_ifs
    · exact Or.inr (Or.inr ⟨rfl, rfl⟩)
    · exact Or.inl rfl
  · split_ifs
    · exact Or.inr (Or.inl ⟨t, m, rfl, rfl⟩)
    · exact Or.inl rfl
  · split_ifs
    · exact Or.inr (Or.inr ⟨rfl, rfl⟩)
    · exact Or.inr (Or.inl ⟨t, m, rfl, rfl⟩)
    · exact Or.inr (Or.inr ⟨rfl, rfl⟩)
    · exact Or.inl rfl

theorem SoundHalt.of_tail {h : Halt} {msgs : List (Nat × Msg)} {intr : Option Nat} {code : Nat}
    (hs : SoundHalt h msgs.tail intr code) : SoundHalt h msgs intr code := by
  rcases hs with hs | ⟨e, h1, ⟨t, h2⟩, h3⟩ | hs | ⟨r, h1, ⟨t, h2⟩, h3⟩
  · exact Or.inl hs
  · exact Or.inr (Or.inl ⟨e, h1, ⟨t, List.mem_of_mem_tail h2⟩, h3⟩)
  · exact Or.inr (Or.inr (Or.inl hs))
  · exact Or.inr (Or.inr (Or.inr ⟨r, h1, ⟨t, List.mem_of_mem_tail h2⟩, h3⟩))

theorem mainLoop_sound (lg : Logger) (env : Env) (code : Nat) (hF : Fatal lg = some code) :
    ∀ (fuel round now : Nat) (msgs : List (Nat × Msg)) (intr : Option Nat) (h : Halt),
      mainLoop lg env fuel round now msgs intr = some h → SoundHalt h msgs intr code := by
  intro fuel
  induction fuel with
  | zero => intro round now msgs intr h hh; simp [mainLoop] at hh
  | succ fuel ih =>
    intro round now msgs intr h hh
    rw [mainLoop, hF] at hh
    simp only at hh
    rcases selectCase_cases now msgs.head? intr (env.pick round) with hc | ⟨t, m, hm, hc⟩ | ⟨hi, hc⟩
    · rw [hc] at hh
      simp only [Option.some.injEq] at hh
      subst hh
      exact Or.inl ⟨rfl, rfl, rfl⟩
    · rw [hc] at hh
      have hmem : (t, m) ∈ msgs := List.mem_of_mem_head? hm
      cases m with
      | request req =>
        simp only [Case.ofMsg] at hh
        exact (ih _ _ _ _ _ hh).of_tail
      | response resp =>
        simp only [Case.ofMsg] at hh
        by_cases hok : strContains resp.response "SIP/2.0 200 OK".toList = true
        · rw [if_pos hok, Option.some.injEq] at hh
          subst hh
          exact Or.inr (Or.inr (Or.inr ⟨resp, rfl, ⟨t, hmem⟩, rfl, (if_pos hok).symm⟩))
        · rw [if_neg hok, Option.some.injEq] at hh
          subst hh
          exact Or.inr (Or.inr (Or.inr ⟨resp, rfl, ⟨t, hmem⟩, rfl, (if_neg hok).symm⟩))
      | responseErr err =>
        simp only [Case.ofMsg, Option.some.injEq] at hh
        subst hh
        exact Or.inr (Or.inl ⟨err, rfl, ⟨t, hmem⟩, rfl, rfl⟩)
    · rw [hc] at hh
      simp only [Option.some.injEq] at hh
      subst hh
      exact Or.inr (Or.inr (Or.inl ⟨rfl, hi, rfl, rfl⟩))

theorem mainLoop_total (lg : Logger) (env : Env) (code : Nat) (hF : Fatal lg = some code) :
    ∀ (fuel round now : Nat) (msgs : List (Nat × Msg)) (intr : Option Nat),
      msgs.length < fuel → ∃ h, mainLoop lg env fuel round now msgs intr = some h := by
  intro fuel
  induction fuel with
  | zero => intro round now msgs intr hlen; omega
  | succ fuel ih =>
    intro round now msgs intr hlen
    rw [mainLoop, hF]
    simp only
    rcases selectCase_cases now msgs.head? intr (env.pick round) with hc | ⟨t, m, hm, hc⟩ | ⟨_, hc⟩
    · rw [hc]; exact ⟨_, rfl⟩
    · rw [hc]
      cases m with
      | request req =>
        simp only [Case.ofMsg]
        apply ih
        cases msgs with
        | nil => simp at hm
        | cons x xs => simp at hlen ⊢; omega
      | response resp =>
        simp only [Case.ofMsg]
        split <;> exact ⟨_, rfl⟩
      | responseErr err => exact ⟨_, rfl⟩
    · rw [hc]; exact ⟨_, rfl⟩

theorem main_logger_fatal (debug : Bool) :
    Fatal (if debug then SetLevel GetLogger DebugLevel else SetLevel GetLogger InfoLevel) =
      some 5 := by
  cases debug <;> decide

theorem timedFrom_length (ready : Nat → Nat) :
    ∀ (i : Nat) (msgs : List Msg), (timedFrom ready i msgs).length = msgs.length
  | _, [] => rfl
  | i, _ :: ms => by simp [timedFrom, timedFrom_length ready (i + 1) ms]

theorem mem_of_mem_timedFrom {ready : Nat → Nat} {t : Nat} {m : Msg} :
    ∀ (i : Nat) (msgs : List Msg), (t, m) ∈ timedFrom ready i msgs → m ∈ msgs
  | _, [], h => by simp [timedFrom] at h
  | i, x :: ms, h => by
    rw [timedFrom, List.mem_cons] at h
    rcases h with h | h
    · have : m = x := congrArg Prod.snd h
      exact this ▸ List.mem_cons_self _ _
    · exact List.mem_cons_of_mem _ (mem_of_mem_timedFrom (i + 1) ms h)

/-- What `SoundHalt` says about the exit code. -/
theorem SoundHalt.code_facts {h : Halt} {msgs : List (Nat × Msg)} {intr : Option Nat}
    (hs : SoundHalt h msgs intr 5) :
    (h.code = 0 ↔ ∃ resp, h.cause = Cause.response resp ∧
      strContains resp.response "SIP/2.0 200 OK".toList = true) ∧
    (h.code = 1 ↔ ∃ resp, h.cause = Cause.response resp ∧
      strContains resp.response "SIP/2.0 200 OK".toList = false) ∧
    ((h.cause = Cause.timer ∨ (∃ err, h.cause = Cause.responseErr err) ∨
      h.cause = Cause.interrupt ∨ h.cause = Cause.unknownScheme) →
        h.fatal = true ∧ h.code = 5) ∧
    ((∃ resp, h.cause = Cause.response resp) → h.fatal = false) ∧
    h.cause ≠ Cause.unknownScheme := by
  rcases hs with ⟨h1, h2, h3⟩ | ⟨e, h1, _, h2, h3⟩ | ⟨h1, _, h2, h3⟩ | ⟨r, h1, _, h2, h3⟩
  · refine ⟨⟨fun h0 => ?_, ?_⟩, ⟨fun h0 => ?_, ?_⟩, fun _ => ⟨h2, h3⟩, ?_, ?_⟩
    · omega
    · rintro ⟨r, hr, _⟩
      rw [h1] at hr
      cases hr
    · omega
    · rintro ⟨r, hr, _⟩
      rw [h1] at hr
      cases hr
    · rintro ⟨r, hr⟩
      rw [h1] at hr
      cases hr
    · rw [h1]
      exact fun h => by cases h
  · refine ⟨⟨fun h0 => ?_, ?_⟩, ⟨fun h0 => ?_, ?_⟩, fun _ => ⟨h2, h3⟩, ?_, ?_⟩
    · omega
    · rintro ⟨r, hr, _⟩
      rw [h1] at hr
      cases hr
    · omega
    · rintro ⟨r, hr, _⟩
      rw [h1] at hr
      cases hr
    · rintro ⟨r, hr⟩
      rw [h1] at hr
      cases hr
    · rw [h1]
      exact fun h => by cases h
  · refine ⟨⟨fun h0 => ?_, ?_⟩, ⟨fun h0 => ?_, ?_⟩, fun _ => ⟨h2, h3⟩, ?_, ?_⟩
    · omega
    · rintro ⟨r, hr, _⟩
      rw [h1] at hr
      cases hr
    · omega
    · rintro ⟨r, hr, _⟩
      rw [h1] at hr
      cases hr
    · rintro ⟨r, hr⟩
      rw [h1] at hr
      cases hr
    · rw [h1]
      exact fun h => by cases h
  · have hm : okMarker = "SIP/2.0 200 OK".toList := rfl
    rw [hm] at h3
    refine ⟨⟨fun h0 => ⟨r, h1, ?_⟩, fun ⟨r2, hr, hc⟩ => ?_⟩,
      ⟨fun h0 => ⟨r, h1, ?_⟩, fun ⟨r2, hr, hc⟩ => ?_⟩, fun hc => ?_, fun _ => h2,
      by rw [h1]; exact fun h => by cases h⟩
    · by_contra hn
      rw [if_neg hn] at h3
      omega
    · rw [h1] at hr
      cases hr
      rw [h3, if_pos hc]
    · cases hb : strContains r.response "SIP/2.0 200 OK".toList
      · rfl
      · rw [if_pos hb] at h3
        omega
    · rw [h1] at hr
      cases hr
      rw [h3, if_neg (by rw [hc]; exact Bool.false_ne_true)]
    · rw [h1] at hc
      rcases hc with hc | ⟨_, hc⟩ | hc | hc <;> cases hc

theorem mainLoop_result (lg : Logger) (env : Env) (hF : Fatal lg = some 5) (ready : Nat → Nat)
    (msgs : List Msg) (intr : Option Nat) :
    ∃ h, (∀ fuel, msgs.length + 1 ≤ fuel →
        mainLoop lg env fuel 0 0 (timedFrom ready 0 msgs) intr = some h) ∧
      SoundHalt h (timedFrom ready 0 msgs) intr 5 := by
  obtain ⟨h, hh⟩ := mainLoop_total lg env 5 hF (msgs.length + 1) 0 0 (timedFrom ready 0 msgs) intr
    (by rw [timedFrom_length]; omega)
  refine ⟨h, fun fuel hfuel => ?_, mainLoop_sound lg env 5 hF _ _ _ _ _ _ hh⟩
  obtain ⟨k, rfl⟩ := Nat.exists_eq_add_of_le hfuel
  exact mainLoop_mono lg env _ _ _ _ _ _ hh k

/-- Where the deciding event of a sound end comes from. -/
theorem SoundHalt.origin {h : Halt} {ready : Nat → Nat} {msgs : List Msg} {intr : Option Nat}
    (hs : SoundHalt h (timedFrom ready 0 msgs) intr 5) :
    (∀ resp, h.cause = Cause.response resp → Msg.response resp ∈ msgs) ∧
    (∀ err, h.cause = Cause.responseErr err → Msg.responseErr err ∈ msgs) ∧
    (h.cause = Cause.interrupt → intr.isSome = true) := by
  rcases hs with ⟨h1, _⟩ | ⟨e, h1, ⟨t, ht⟩, _⟩ | ⟨h1, h2, _⟩ | ⟨r, h1, ⟨t, ht⟩, _⟩
  · refine ⟨fun r hr => ?_, fun e hr => ?_, fun hr => ?_⟩ <;> rw [h1] at hr <;> cases hr
  · refine ⟨fun r hr => ?_, fun e2 hr => ?_, fun hr => ?_⟩
    · rw [h1] at hr; cases hr
    · rw [h1] at hr; cases hr
      exact mem_of_mem_timedFrom 0 msgs ht
    · rw [h1] at hr; cases hr
  · refine ⟨fun r hr => ?_, fun e hr => ?_, fun _ => h2⟩ <;> rw [h1] at hr <;> cases hr
  · refine ⟨fun r2 hr => ?_, fun e2 hr => ?_, fun hr => ?_⟩
    · rw [h1] at hr; cases hr
      exact mem_of_mem_timedFrom 0 msgs ht
    · rw [h1] at hr; cases hr
    · rw [h1] at hr; cases hr

theorem main_ws (fuel : Nat) (debug : Bool) (addr : GoString) (skipVerify : Bool) (url : URL)
    (w : World) (hs : url.Scheme = "wss".toList ∨ url.Scheme = "ws".toList) :
    main fuel debug addr skipVerify url w =
      mainLoop (if debug then SetLevel GetLogger DebugLevel else SetLevel GetLogger InfoLevel)
        w.env fuel 0 0 (timedFrom w.env.ready 0 (queryWS url addr skipVerify w.ws w.rand))
        w.interrupt := by
  unfold main
  exact if_pos hs

theorem main_socket (fuel : Nat) (debug : Bool) (addr : GoString) (skipVerify : Bool) (url : URL)
    (w : World) (hs : ¬ (url.Scheme = "wss".toList ∨ url.Scheme = "ws".toList))
    (hs2 : url.Scheme = "udp".toList ∨ url.Scheme = "tcp".toList ∨ url.Scheme = "tls".toList) :
    main fuel debug addr skipVerify url w =
      mainLoop (if debug then SetLevel GetLogger DebugLevel else SetLevel GetLogger InfoLevel)
        w.env fuel 0 0 (timedFrom w.env.ready 0 (querySIP url skipVerify w.socket w.rand))
        w.interrupt := by
  unfold main
  dsimp only
  rw [if_neg hs, if_pos hs2]

theorem main_unknown (fuel : Nat) (debug : Bool) (addr : GoString) (skipVerify : Bool) (url : URL)
    (w : World) (hs : ¬ (url.Scheme = "wss".toList ∨ url.Scheme = "ws".toList))
    (hs2 : ¬ (url.Scheme = "udp".toList ∨ url.Scheme = "tcp".toList ∨
      url.Scheme = "tls".toList)) :
    main fuel debug addr skipVerify url w = some ⟨Cause.unknownScheme, 5, true, 0⟩ := by
  unfold main
  dsimp only
  rw [if_neg hs, if_neg hs2, main_logger_fatal]

/-- C1.  Whatever the surroundings do, `main` ends (enough fuel gives the same
end `h`), and its exit code is 0 exactly when the loop received a `Response`
whose body contains "SIP/2.0 200 OK", 1 exactly when it received a `Response`
whose body does not contain it; when it ends on the timer, on a transport
error, on an interrupt or on an unknown scheme, it ends inside `log.Fatal` with
exit code 5, which is neither 0 nor 1.  A deciding response or error is one the
launched strategy sent, a deciding interrupt is one that came, and the
unknown-scheme end happens exactly for a scheme outside the five. -/
theorem C1_exit_code_by_outcome (debug : Bool) (addr : GoString) (skipVerify : Bool)
    (url : URL) (w : World) :
    ∃ h : Halt,
      (∃ n, ∀ fuel, n ≤ fuel → main fuel debug addr skipVerify url w = some h) ∧
      (h.code = 0 ↔ ∃ resp, h.cause = Cause.response resp ∧
        strContains resp.response "SIP/2.0 200 OK".toList = true) ∧
      (h.code = 1 ↔ ∃ resp, h.cause = Cause.response resp ∧
        strContains resp.response "SIP/2.0 200 OK".toList = false) ∧
      ((h.cause = Cause.timer ∨ (∃ err, h.cause = Cause.responseErr err) ∨
        h.cause = Cause.interrupt ∨ h.cause = Cause.unknownScheme) →
          h.fatal = true ∧ h.code = 5 ∧ h.code ≠ 0 ∧ h.code ≠ 1) ∧
      ((∃ resp, h.cause = Cause.response resp) → h.fatal = false) ∧
      (h.cause = Cause.unknownScheme ↔
        url.Scheme ∉ ["wss".toList, "ws".toList, "udp".toList, "tcp".toList, "tls".toList]) ∧
      (∀ resp, h.cause = Cause.response resp →
        Msg.response resp ∈ queryWS url addr skipVerify w.ws w.rand ∨
        Msg.response resp ∈ querySIP url skipVerify w.socket w.rand) ∧
      (∀ err, h.cause = Cause.responseErr err →
        Msg.responseErr err ∈ queryWS url addr skipVerify w.ws w.rand ∨
        Msg.responseErr err ∈ querySIP url skipVerify w.socket w.rand) ∧
      (h.cause = Cause.interrupt → w.interrupt.isSome = true) := by
  by_cases hs : url.Scheme = "wss".toList ∨ url.Scheme = "ws".toList
  · obtain ⟨h, hrun, hsound⟩ := mainLoop_result _ w.env (main_logger_fatal debug) w.env.ready
      (queryWS url addr skipVerify w.ws w.rand) w.interrupt
    obtain ⟨c0, c1, cf, cr, cu⟩ := hsound.code_facts
    obtain ⟨o1, o2, o3⟩ := hsound.origin
    refine ⟨h, ⟨_, fun fuel hf => (main_ws fuel debug addr skipVerify url w hs).trans
      (hrun fuel hf)⟩, c0, c1, fun hc => ?_, cr, ⟨fun hu => absurd hu cu, fun hn => ?_⟩,
      fun r hr => Or.inl (o1 r hr), fun e he => Or.inl (o2 e he), o3⟩
    · obtain ⟨f1, f2⟩ := cf hc
      exact ⟨f1, f2, by omega, by omega⟩
    · rcases hs with hs | hs <;> rw [hs] at hn <;> exact absurd (by decide) hn
  · by_cases hs2 : url.Scheme = "udp".toList ∨ url.Scheme = "tcp".toList ∨
        url.Scheme = "tls".toList
    · obtain ⟨h, hrun, hsound⟩ := mainLoop_result _ w.env (main_logger_fatal debug) w.env.ready
        (querySIP url skipVerify w.socket w.rand) w.interrupt
      obtain ⟨c0, c1, cf, cr, cu⟩ := hsound.code_facts
      obtain ⟨o1, o2, o3⟩ := hsound.origin
      refine ⟨h, ⟨_, fun fuel hf => (main_socket fuel debug addr skipVerify url w hs hs2).trans
        (hrun fuel hf)⟩, c0, c1, fun hc => ?_, cr, ⟨fun hu => absurd hu cu, fun hn => ?_⟩,
        fun r hr => Or.inr (o1 r hr), fun e he => Or.inr (o2 e he), o3⟩
      · obtain ⟨f1, f2⟩ := cf hc
        exact ⟨f1, f2, by omega, by omega⟩
      · rcases hs2 with hs2 | hs2 | hs2 <;> rw [hs2] at hn <;> exact absurd (by decide) hn
    · refine ⟨⟨Cause.unknownScheme, 5, true, 0⟩,
        ⟨0, fun fuel _ => main_unknown fuel debug addr skipVerify url w hs hs2⟩, ?_, ?_, ?_, ?_,
        ?_, ?_, ?_, ?_⟩
      · exact ⟨fun h0 => absurd h0 (by decide), fun ⟨_, hr, _⟩ => by cases hr⟩
      · exact ⟨fun h0 => absurd h0 (by decide), fun ⟨_, hr, _⟩ => by cases hr⟩
      · exact fun _ => ⟨rfl, rfl, by decide, by decide⟩
      · exact fun ⟨_, hr⟩ => by cases hr
      · refine ⟨fun _ hm => ?_, fun _ => rfl⟩
        simp only [List.mem_cons, List.mem_singleton, List.not_mem_nil, or_false] at hm
        rcases hm with hm | hm | hm | hm | hm
        · exact hs (Or.inl hm)
        · exact hs (Or.inr hm)
        · exact hs2 (Or.inl hm)
        · exact hs2 (Or.inr (Or.inl hm))
        · exact hs2 (Or.inr (Or.inr hm))
      · exact fun _ hr => by cases hr
      · exact fun _ hr => by cases hr
      · exact fun hr => by cases hr

theorem strContains_iff_occurs (sub : GoString) :
    ∀ s : GoString, strContains s sub = true ↔ sub <:+: s
  | [] => by
    rw [strContains, List.isPrefixOf_iff_prefix]
    simp
  | c :: cs => by
    rw [strContains, Bool.or_eq_true, List.isPrefixOf_iff_prefix, strContains_iff_occurs sub cs,
      List.infix_cons_iff]

theorem strContains_of_starts {sub s : GoString} (h : sub <+: s) : strContains s sub = true :=
  (strContains_iff_occurs sub s).mpr h.isInfix

/-- Every end of `main` with enough fuel is sound. -/
theorem main_sound (fuel : Nat) (debug : Bool) (addr : GoString) (skipVerify : Bool) (url : URL)
    (w : World) (h : Halt) (hrun : main fuel debug addr skipVerify url w = some h) :
    h = ⟨Cause.unknownScheme, 5, true, 0⟩ ∨
    SoundHalt h (timedFrom w.env.ready 0 (queryWS url addr skipVerify w.ws w.rand)) w.interrupt 5 ∨
    SoundHalt h (timedFrom w.env.ready 0 (querySIP url skipVerify w.socket w.rand))
      w.interrupt 5 := by
  by_cases hs : url.Scheme = "wss".toList ∨ url.Scheme = "ws".toList
  · rw [main_ws fuel debug addr skipVerify url w hs] at hrun
    exact Or.inr (Or.inl (mainLoop_sound _ _ 5 (main_logger_fatal debug) _ _ _ _ _ _ hrun))
  · by_cases hs2 : url.Scheme = "udp".toList ∨ url.Scheme = "tcp".toList ∨
        url.Scheme = "tls".toList
    · rw [main_socket fuel debug addr skipVerify url w hs hs2] at hrun
      exact Or.inr (Or.inr (mainLoop_sound _ _ 5 (main_logger_fatal debug) _ _ _ _ _ _ hrun))
    · rw [main_unknown fuel debug addr skipVerify url w hs hs2] at hrun
      exact Or.inl (Option.some.inj hrun).symm

set_option maxRecDepth 100000 in
/-- C2, counterexample.  Over `tcp` a peer answers `404 Not Found` and carries
the text "SIP/2.0 200 OK" in a later header: the body does not begin with the
status line, the strategy delivers it, and `main` exits with code 0. -/
theorem C2_counterexample :
    ("SIP/2.0 200 OK".toList.isPrefixOf lateMarkerBody = false ∧
      "SIP/2.0 404 Not Found\r\n".toList.isPrefixOf lateMarkerBody = true) ∧
    Msg.response ⟨lateMarkerBody, 3000000⟩ ∈
      querySIP tcpURL false lateMarkerWorld.socket lateMarkerWorld.rand ∧
    main 3 false "tcp://example.org:5060".toList false tcpURL lateMarkerWorld =
      some ⟨Cause.response ⟨lateMarkerBody, 3000000⟩, 0, false, 2 * Second⟩ := by
  decide

/-- C2, amended.  When `main` ends on a response, the response is one that the
launched strategy delivered, and the exit code is 0 exactly when the body
contains "SIP/2.0 200 OK" somewhere (and 1 otherwise); so a body that begins
with that status line gives 0, and a body that carries the text only later
gives 0 as well. -/
theorem C2_success_iff_contains (fuel : Nat) (debug : Bool) (addr : GoString)
    (skipVerify : Bool) (url : URL) (w : World) (h : Halt) (resp : sipResponse)
    (hrun : main fuel debug addr skipVerify url w = some h)
    (hresp : h.cause = Cause.response resp) :
    (Msg.response resp ∈ queryWS url addr skipVerify w.ws w.rand ∨
      Msg.response resp ∈ querySIP url skipVerify w.socket w.rand) ∧
    (h.code = 0 ↔ strContains resp.response "SIP/2.0 200 OK".toList = true) ∧
    (h.code = 1 ↔ strContains resp.response "SIP/2.0 200 OK".toList = false) ∧
    ("SIP/2.0 200 OK".toList <+: resp.response → h.code = 0) ∧
    (∀ pre post, resp.response = pre ++ "SIP/2.0 200 OK".toList ++ post → h.code = 0) := by
  have key : (Msg.response resp ∈ queryWS url addr skipVerify w.ws w.rand ∨
      Msg.response resp ∈ querySIP url skipVerify w.socket w.rand) ∧
      (h.code = 0 ↔ strContains resp.response "SIP/2.0 200 OK".toList = true) ∧
      (h.code = 1 ↔ strContains resp.response "SIP/2.0 200 OK".toList = false) := by
    rcases main_sound fuel debug addr skipVerify url w h hrun with hu | hs | hs
    · rw [hu] at hresp
      cases hresp
    · obtain ⟨c0, c1, _⟩ := hs.code_facts
      refine ⟨Or.inl (hs.origin.1 resp hresp), c0.trans ⟨?_, fun hc => ⟨resp, hresp, hc⟩⟩,
        c1.trans ⟨?_, fun hc => ⟨resp, hresp, hc⟩⟩⟩
      · rintro ⟨r, hr, hc⟩
        rw [hresp] at hr
        cases hr
        exact hc
      · rintro ⟨r, hr, hc⟩
        rw [hresp] at hr
        cases hr
        exact hc
    · obtain ⟨c0, c1, _⟩ := hs.code_facts
      refine ⟨Or.inr (hs.origin.1 resp hresp), c0.trans ⟨?_, fun hc => ⟨resp, hresp, hc⟩⟩,
        c1.trans ⟨?_, fun hc => ⟨resp, hresp, hc⟩⟩⟩
      · rintro ⟨r, hr, hc⟩
        rw [hresp] at hr
        cases hr
        exact hc
      · rintro ⟨r, hr, hc⟩
        rw [hresp] at hr
        cases hr
        exact hc
  refine ⟨key.1, key.2.1, key.2.2, fun hp => key.2.1.mpr (strContains_of_starts hp),
    fun pre post he => key.2.1.mpr ((strContains_iff_occurs _ _).mpr ⟨pre, post, he.symm⟩)⟩

set_option maxRecDepth 100000 in
/-- C2, the amended statement at the example of the counterexample. -/
theorem C2_success_iff_contains_witness :
    (main 3 false "tcp://example.org:5060".toList false tcpURL lateMarkerWorld =
        some ⟨Cause.response ⟨lateMarkerBody, 3000000⟩, 0, false, 2 * Second⟩) ∧
    ((0 : Nat) = 0 ↔ strContains lateMarkerBody "SIP/2.0 200 OK".toList = true) :=
  ⟨by decide,
    (C2_success_iff_contains 3 false "tcp://example.org:5060".toList false tcpURL lateMarkerWorld
      ⟨Cause.response ⟨lateMarkerBody, 3000000⟩, 0, false, 2 * Second⟩
      ⟨lateMarkerBody, 3000000⟩ (by decide) rfl).2.1⟩

theorem selectCase_idle (now coin : Nat) :
    selectCase now none none coin = (now + 15 * Second, Case.timer) := rfl

theorem selectCase_early (t coin : Nat) (m : Msg) (ht : t < 15 * Second) :
    selectCase 0 (some (t, m)) none coin = (t, Case.ofMsg m) := by
  unfold selectCase
  dsimp only
  rw [if_pos (Or.inl (by simpa using ht))]
  simp

theorem selectCase_late (t coin : Nat) (m : Msg) (ht : 15 * Second < t) :
    selectCase 0 (some (t, m)) none coin = (15 * Second, Case.timer) := by
  unfold selectCase
  dsimp only
  rw [if_neg (by simp only [Nat.zero_add, Nat.max_zero]; omega)]
  simp

theorem mainLoop_request_early (lg : Logger) (env : Env) (hF : Fatal lg = some 5)
    (req : GoString) (t : Nat) (ht : t < 15 * Second) (fuel round : Nat) (hfuel : 2 ≤ fuel) :
    mainLoop lg env fuel round 0 [(t, Msg.request req)] none =
      some ⟨Cause.timer, 5, true, t + env.logCost + 15 * Second⟩ := by
  obtain ⟨k, rfl⟩ := Nat.exists_eq_add_of_le hfuel
  rw [show 2 + k = (k + 1) + 1 by omega, mainLoop]
  simp only [List.head?_cons, selectCase_early t _ _ ht, Case.ofMsg, List.tail_cons]
  rw [mainLoop]
  simp only [List.head?_nil, selectCase_idle, hF]

theorem mainLoop_request_late (lg : Logger) (env : Env) (hF : Fatal lg = some 5)
    (req : GoString) (t : Nat) (ht : 15 * Second < t) (fuel round : Nat) (hfuel : 1 ≤ fuel) :
    mainLoop lg env fuel round 0 [(t, Msg.request req)] none =
      some ⟨Cause.timer, 5, true, 15 * Second⟩ := by
  obtain ⟨k, rfl⟩ := Nat.exists_eq_add_of_le hfuel
  rw [show 1 + k = k + 1 by omega, mainLoop]
  simp only [List.head?_cons, selectCase_late t _ _ ht, hF]

set_option maxRecDepth 100000 in
/-- C3, counterexample.  Over `tcp` the peer never answers and the "request
sent" event is received four seconds after `main` started to wait; no response,
no error and no interrupt ever comes.  `main` then ends on the timer at 19
seconds, not at 15: the event has restarted the timer. -/
theorem C3_counterexample :
    querySIP tcpURL false silentWorld.socket silentWorld.rand =
      [Msg.request (renderRequest TCP_OPTIONS "10.0.0.1:5060".toList "tcp".toList
        exampleRand).1] ∧
    silentWorld.interrupt = none ∧
    main 3 false "tcp://example.org:5060".toList false tcpURL silentWorld =
      some ⟨Cause.timer, 5, true, 19 * Second⟩ ∧
    19 * Second ≠ 15 * Second := by
  decide

/-- C3, amended.  The timer of 15 seconds is created anew each time `select` is
entered.  Let the launched strategy send nothing but its "request sent" event,
ready at time `ready 0`, and let no interrupt come.  If the event is ready
before 15 seconds, `main` receives and logs it and then ends on the timer 15
seconds later, at `ready 0 + logCost + 15 s`; if the event is ready only after
15 seconds, `main` ends on the timer at 15 seconds. -/
theorem C3_timer_restarts (debug : Bool) (addr : GoString) (skipVerify : Bool) (url : URL)
    (w : World) (req : GoString)
    (hstrategy :
      (url.Scheme ∈ wsSchemes ∧ queryWS url addr skipVerify w.ws w.rand = [Msg.request req]) ∨
      (url.Scheme ∈ socketSchemes ∧
        querySIP url skipVerify w.socket w.rand = [Msg.request req]))
    (hintr : w.interrupt = none) :
    (w.env.ready 0 < 15 * Second → ∀ fuel, 2 ≤ fuel →
      main fuel debug addr skipVerify url w =
        some ⟨Cause.timer, 5, true, w.env.ready 0 + w.env.logCost + 15 * Second⟩) ∧
    (15 * Second < w.env.ready 0 → ∀ fuel, 1 ≤ fuel →
      main fuel debug addr skipVerify url w = some ⟨Cause.timer, 5, true, 15 * Second⟩) := by
  have hmain : ∀ fuel, main fuel debug addr skipVerify url w =
      mainLoop (if debug then SetLevel GetLogger DebugLevel else SetLevel GetLogger InfoLevel)
        w.env fuel 0 0 [(w.env.ready 0, Msg.request req)] none := by
    intro fuel
    rcases hstrategy with ⟨hs, hq⟩ | ⟨hs, hq⟩
    · have hs1 : url.Scheme = "wss".toList ∨ url.Scheme = "ws".toList := by
        simp only [wsSchemes, List.mem_cons, List.mem_singleton, List.not_mem_nil,
          or_false] at hs
        exact hs.symm
      rw [main_ws fuel debug addr skipVerify url w hs1, hq, hintr]
      rfl
    · have hs1 : url.Scheme = "udp".toList ∨ url.Scheme = "tcp".toList ∨
          url.Scheme = "tls".toList := by
        simpa only [socketSchemes, List.mem_cons, List.mem_singleton, List.not_mem_nil,
          or_false] using hs
      have hs0 : ¬ (url.Scheme = "wss".toList ∨ url.Scheme = "ws".toList) := by
        rcases hs1 with h | h | h <;> rw [h] <;> decide
      rw [main_socket fuel debug addr skipVerify url w hs0 hs1, hq, hintr]
      rfl
  refine ⟨fun ht fuel hfuel => ?_, fun ht fuel hfuel => ?_⟩
  · rw [hmain]
    exact mainLoop_request_early _ _ (main_logger_fatal debug) req _ ht fuel 0 hfuel
  · rw [hmain]
    exact mainLoop_request_late _ _ (main_logger_fatal debug) req _ ht fuel 0 hfuel

set_option maxRecDepth 100000 in
/-- C3, the amended statement at the example of the counterexample: the timer
fires at 4 s + 0 + 15 s. -/
theorem C3_timer_restarts_witness :
    silentWorld.env.ready 0 < 15 * Second ∧
    main 2 false "tcp://example.org:5060".toList false tcpURL silentWorld =
      some ⟨Cause.timer, 5, true,
        silentWorld.env.ready 0 + silentWorld.env.logCost + 15 * Second⟩ :=
  ⟨by decide,
    (C3_timer_restarts false "tcp://example.org:5060".toList false tcpURL silentWorld
      (renderRequest TCP_OPTIONS "10.0.0.1:5060".toList "tcp".toList exampleRand).1
      (Or.inr ⟨by decide, by decide⟩) rfl).1 (by decide) 2 (le_refl 2)⟩

/-! ## The request builder -/

theorem noCross_of_last {old b : GoString} {l : Char} (a : GoString)
    (hlast : old.getLast? = some l) (hl : l ∉ b) : NoCross old a b := by
  intro k _ hk _ hp
  have h1 : (old.drop k).getLast? = some l := by
    rw [List.getLast?_drop, if_neg (by omega), hlast]
  exact hl (hp.subset (List.mem_of_getLast?_eq_some h1))

theorem replaceScan_keep_tail {old : GoString} (new : GoString) {l : Char} (a : GoString)
    {tail : GoString} (hlast : old.getLast? = some l) (hl : l ∉ tail) :
    replaceScan old new 0 (a ++ tail) = replaceScan old new 0 a ++ tail := by
  have hmem : l ∈ old := List.mem_of_getLast?_eq_some hlast
  rw [replaceScan_append (List.ne_nil_of_mem hmem) (noCross_of_last a hlast hl),
    replaceScan_id_of_not_mem new hmem tail hl]

/-- Whatever the address and the scheme are, the last segment of a template
that ends like the two of `main.go` comes out with its line ends doubled to
CR LF and nothing else changed. -/
theorem render_tail (options la p : GoString) (r : Rand) (head : GoString)
    (hopt : options = head ++ tcpS6) :
    ∃ body, (renderRequest options la p r).1 = replaceScan LF CRLF 0 body ++ tcpT6 := by
  rw [renderRequest_fst, hopt]
  rw [strReplaceAll_eq _ _ (by decide), strReplaceAll_eq _ _ (by decide),
    strReplaceAll_eq _ _ (by decide), strReplaceAll_eq _ _ (by decide),
    strReplaceAll_eq _ _ (by decide), strReplaceAll_eq _ _ (by decide)]
  rw [replaceScan_keep_tail _ head (l := '}') (by decide) (by decide),
    replaceScan_keep_tail _ _ (l := '}') (by decide) (by decide),
    replaceScan_keep_tail _ _ (l := '}') (by decide) (by decide),
    replaceScan_keep_tail _ _ (l := '}') (by decide) (by decide),
    replaceScan_keep_tail _ _ (l := '}') (by decide) (by decide)]
  rw [replaceScan_append (by decide) (noCross_of_short _ _ (by decide))]
  exact ⟨_, congrArg _ (by decide)⟩

set_option maxRecDepth 100000 in
theorem TCP_OPTIONS_tail : ∃ head, TCP_OPTIONS = head ++ tcpS6 :=
  ⟨List.flatten [tcpS0, phProto, tcpS1, phPROTOC, tcpS2, phLocalAddr, tcpS3,
      phProto, tcpS4, phCallId, tcpS5, phSeq], by decide⟩

set_option maxRecDepth 100000 in
theorem WS_OPTIONS_tail : ∃ head, WS_OPTIONS = head ++ tcpS6 :=
  ⟨List.flatten [wsS0, phPROTOC, wsS1, phCallId, tcpS5, phSeq], by decide⟩

/-- After `"\n"` has been replaced by `"\r\n"`, every LF stands behind a CR. -/
theorem no_bare_lf_replaceScan :
    ∀ (s a b : GoString), replaceScan LF CRLF 0 s = a ++ '\n' :: b → ∃ a1, a = a1 ++ ['\r']
  | [], a, b, h => by
    rw [replaceScan_nil] at h
    cases a <;> cases h
  | c :: cs, a, b, h => by
    rw [replaceScan_cons LF CRLF (by decide)] at h
    by_cases hc : c = '\n'
    · subst hc
      have h1 : LF.isPrefixOf ('\n' :: cs) = true := by simp [LF]
      rw [if_pos h1] at h
      have h2 : List.drop LF.length ('\n' :: cs) = cs := rfl
      rw [h2] at h
      change '\r' :: '\n' :: replaceScan LF CRLF 0 cs = a ++ '\n' :: b at h
      cases a with
      | nil => exact absurd (List.cons.inj h).1 (by decide)
      | cons x a1 =>
        obtain ⟨hx, h3⟩ := List.cons.inj h
        cases a1 with
        | nil => exact ⟨[], by rw [← hx]; rfl⟩
        | cons y a2 =>
          obtain ⟨hy, h4⟩ := List.cons.inj h3
          obtain ⟨a3, ha3⟩ := no_bare_lf_replaceScan cs a2 b h4
          exact ⟨x :: y :: a3, by rw [ha3]; rfl⟩
    · have h1 : ¬ LF.isPrefixOf (c :: cs) = true := by
        simp only [LF, List.isPrefixOf_iff_prefix]
        intro hp
        have h5 : ['\n'] = List.take 1 (c :: cs) := List.prefix_iff_eq_take.mp hp
        exact hc (List.cons.inj h5).1.symm
      rw [if_neg h1] at h
      cases a with
      | nil => exact absurd (List.cons.inj h).1 hc
      | cons x a1 =>
        obtain ⟨_, h3⟩ := List.cons.inj h
        obtain ⟨a3, ha3⟩ := no_bare_lf_replaceScan cs a1 b h3
        exact ⟨x :: a3, by rw [ha3]; rfl⟩

theorem render_ending (options la p : GoString) (r : Rand)
    (hopt : ∃ head, options = head ++ tcpS6) :
    (CRLF ++ CRLF) <:+ (renderRequest options la p r).1 ∧
    ¬ (CRLF ++ CRLF ++ CRLF) <:+ (renderRequest options la p r).1 ∧
    ∀ a b, (renderRequest options la p r).1 = a ++ '\n' :: b → ∃ a1, a = a1 ++ ['\r'] := by
  obtain ⟨head, hhead⟩ := hopt
  obtain ⟨body, hbody⟩ := render_tail options la p r head hhead
  refine ⟨?_, ?_, ?_⟩
  · rw [hbody]
    have h1 : (CRLF ++ CRLF) <:+ tcpT6 := List.isSuffixOf_iff_suffix.mp (by decide)
    exact h1.trans (List.suffix_append _ _)
  · rw [hbody]
    intro h
    have h1 : (CRLF ++ CRLF ++ CRLF) <:+ tcpT6 :=
      List.suffix_of_suffix_length_le h (List.suffix_append _ _) (by decide)
    have h2 := List.isSuffixOf_iff_suffix.mpr h1
    revert h2
    decide
  · intro a b h
    rw [renderRequest_fst, strReplaceAll_eq _ _ (by decide)] at h
    exact no_bare_lf_replaceScan _ a b h

/-- C4.  For both templates, every local address, every scheme text and every
value of the random bytes, the rendered request ends with CR LF CR LF but not
with CR LF CR LF CR LF, and every LF in it stands directly behind a CR.  (The
statement needs no restriction on the address or the scheme; the five schemes
and the addresses without line breaks are instances.) -/
theorem C4_one_blank_line_no_bare_lf (la p : GoString) (r : Rand) :
    ((CRLF ++ CRLF) <:+ (renderRequest WS_OPTIONS la p r).1 ∧
      ¬ (CRLF ++ CRLF ++ CRLF) <:+ (renderRequest WS_OPTIONS la p r).1 ∧
      ∀ a b, (renderRequest WS_OPTIONS la p r).1 = a ++ '\n' :: b → ∃ a1, a = a1 ++ ['\r']) ∧
    ((CRLF ++ CRLF) <:+ (renderRequest TCP_OPTIONS la p r).1 ∧
      ¬ (CRLF ++ CRLF ++ CRLF) <:+ (renderRequest TCP_OPTIONS la p r).1 ∧
      ∀ a b, (renderRequest TCP_OPTIONS la p r).1 = a ++ '\n' :: b → ∃ a1, a = a1 ++ ['\r']) :=
  ⟨render_ending WS_OPTIONS la p r WS_OPTIONS_tail,
    render_ending TCP_OPTIONS la p r TCP_OPTIONS_tail⟩

/-! ### Reading the rendered request line by line -/

theorem splitCRLFAux_line :
    ∀ (l acc rest : GoString), '\n' ∉ l →
      splitCRLFAux acc (l ++ '\r' :: '\n' :: rest) = (acc.reverse ++ l) :: splitCRLFAux [] rest
  | [], acc, rest, _ => by
    simp [splitCRLFAux]
  | [c], acc, rest, h => by
    have hc : c ≠ '\n' := fun e => h (by simp [e])
    rw [List.singleton_append, splitCRLFAux]
    rw [if_neg (fun hh => absurd hh.2 (by decide))]
    rw [splitCRLFAux, if_pos ⟨rfl, rfl⟩]
    simp
  | c :: d :: l, acc, rest, h => by
    have hd : d ≠ '\n' := fun e => h (by simp [e])
    have hl : '\n' ∉ d :: l := fun hm => h (List.mem_cons_of_mem _ hm)
    rw [List.cons_append, List.cons_append, splitCRLFAux, if_neg (fun hh => hd hh.2)]
    rw [← List.cons_append, splitCRLFAux_line (d :: l) (c :: acc) rest hl]
    simp

theorem splitCRLF_joinLines :
    ∀ lines : List GoString, (∀ l ∈ lines, '\n' ∉ l) →
      splitCRLF (joinLines lines) = lines ++ [[]]
  | [], _ => rfl
  | l :: ls, h => by
    have ih := splitCRLF_joinLines ls (fun x hx => h x (List.mem_cons_of_mem _ hx))
    unfold splitCRLF at ih ⊢
    have e : joinLines (l :: ls) = l ++ '\r' :: '\n' :: joinLines ls := by
      simp [joinLines, CRLF]
    rw [e, splitCRLFAux_line l [] _ (h l (List.mem_cons_self _ _)), ih]
    simp

theorem takeWhile_nonempty_lines :
    ∀ (hs rest : List GoString), (∀ l ∈ hs, l ≠ []) →
      (hs ++ [] :: rest).takeWhile (fun l => !l.isEmpty) = hs
  | [], rest, _ => by simp [List.takeWhile]
  | l :: hs, rest, h => by
    have hl : l ≠ [] := h l (List.mem_cons_self _ _)
    have hl2 : (!l.isEmpty) = true := by
      cases l with
      | nil => exact absurd rfl hl
      | cons _ _ => rfl
    rw [List.cons_append, List.takeWhile_cons, if_pos hl2,
      takeWhile_nonempty_lines hs rest (fun x hx => h x (List.mem_cons_of_mem _ hx))]

/-- The header lines of a message that is written as a first line, the header
lines, and an empty line. -/
theorem headerLines_joinLines (all : List GoString) (first : GoString) (hs : List GoString)
    (hall : all = first :: (hs ++ [[]]))
    (h1 : '\n' ∉ first) (h2 : ∀ l ∈ hs, '\n' ∉ l) (h3 : ∀ l ∈ hs, l ≠ []) :
    headerLines (joinLines all) = hs := by
  subst hall
  unfold headerLines
  rw [splitCRLF_joinLines]
  · have e : List.drop 1 (first :: (hs ++ [[]]) ++ [[]]) = hs ++ [] :: [[]] := by simp
    rw [e, takeWhile_nonempty_lines hs _ h3]
  · intro l hl
    rcases List.mem_cons.mp hl with rfl | hl
    · exact h1
    · rcases List.mem_append.mp hl with hl | hl
      · exact h2 l hl
      · simp only [List.mem_singleton] at hl
        subst hl
        simp

theorem lf_not_mem_alphanum_text {n : Nat} {r : Rand} : '\n' ∉ (randString n r).1 :=
  (randString_plain n r).2.1

theorem lf_not_mem_itoa {n : Nat} : '\n' ∉ itoa n := (itoa_plain n).2.1

/-- The header lines of the request of the socket strategies. -/
theorem tcp_headerLines (la p : GoString) (r : Rand) (hp : p ∈ socketSchemes)
    (hla : '\n' ∉ la) :
    headerLines (renderRequest TCP_OPTIONS la p r).1 =
      [ "Via: SIP/2.0/".toList ++ strToUpper p ++ " ".toList ++
          replaceScan phSeq (itoa (256 * (r 0 % 256) + r 1 % 256)) 0
            (replaceScan phProto (strToLower p) 0 (replaceScan phPROTOC (strToUpper p) 0 la)) ++
          ";branch=z9hG4bKr1t13cmvZDjtg".toList,
        "Max-Forwards: 70".toList,
        "From: \"\" <sip:monitor@invalid>".toList,
        "To: <sip:host@invalid;transport=".toList ++ strToLower p ++ ">".toList,
        "Call-ID: ".toList ++ (randString 20 (randRead 2 r).2).1,
        "CSeq: ".toList ++ itoa (256 * (r 0 % 256) + r 1 % 256) ++ " OPTIONS".toList,
        "Content-Length: 0".toList ] := by
  obtain ⟨⟨_, hU2⟩, _, hL2⟩ := scheme_plain (Or.inl hp)
  have hla3 : '\n' ∉ replaceScan phSeq (itoa (256 * (r 0 % 256) + r 1 % 256)) 0
      (replaceScan phProto (strToLower p) 0 (replaceScan phPROTOC (strToUpper p) 0 la)) :=
    not_mem_replaceScan (not_mem_replaceScan (not_mem_replaceScan hla hU2) hL2) lf_not_mem_itoa
  have hc := @lf_not_mem_alphanum_text 20 (randRead 2 r).2
  have hd := @lf_not_mem_itoa (256 * (r 0 % 256) + r 1 % 256)
  rw [tcp_render_lines_any la p r hp hla]
  refine headerLines_joinLines _ _ _ rfl ?_ ?_ ?_
  · simp only [List.mem_append, not_or]
    exact ⟨⟨by decide, hL2⟩, by decide⟩
  · intro l hl
    simp only [List.mem_cons, List.mem_singleton, List.not_mem_nil, or_false] at hl
    rcases hl with rfl | rfl | rfl | rfl | rfl | rfl | rfl
    · simp only [List.mem_append, not_or]
      exact ⟨⟨⟨⟨by decide, hU2⟩, by decide⟩, hla3⟩, by decide⟩
    · decide
    · decide
    · simp only [List.mem_append, not_or]
      exact ⟨⟨by decide, hL2⟩, by decide⟩
    · simp only [List.mem_append, not_or]
      exact ⟨by decide, hc⟩
    · simp only [List.mem_append, not_or]
      exact ⟨⟨by decide, hd⟩, by decide⟩
    · decide
  · intro l hl
    simp only [List.mem_cons, List.mem_singleton, List.not_mem_nil, or_false] at hl
    rcases hl with rfl | rfl | rfl | rfl | rfl | rfl | rfl <;>
      exact fun h => List.noConfusion h

/-- The header lines of the request of the WebSocket strategy. -/
theorem ws_headerLines (la p : GoString) (r : Rand) (hp : p ∈ wsSchemes) :
    headerLines (renderRequest WS_OPTIONS la p r).1 =
      [ "Via: SIP/2.0/".toList ++ strToUpper p ++
          " 81okseq92jb7.invalid;branch=z9hG4bK5964427".toList,
        "To: <sip:ba_user@none>".toList,
        "From: <sip:anonymous.8scs48@anonymous.invalid>;tag=fql2c8mlg3".toList,
        "Call-ID: ".toList ++ (randString 20 (randRead 2 r).2).1,
        "CSeq: ".toList ++ itoa (256 * (r 0 % 256) + r 1 % 256) ++ " OPTIONS".toList,
        "Content-Length: 0".toList ] := by
  obtain ⟨⟨_, hU2⟩, _, _⟩ := scheme_plain (Or.inr hp)
  have hc := @lf_not_mem_alphanum_text 20 (randRead 2 r).2
  have hd := @lf_not_mem_itoa (256 * (r 0 % 256) + r 1 % 256)
  rw [ws_render_lines la p r hp]
  refine headerLines_joinLines _ _ _ rfl ?_ ?_ ?_
  · decide
  · intro l hl
    simp only [List.mem_cons, List.mem_singleton, List.not_mem_nil, or_false] at hl
    rcases hl with rfl | rfl | rfl | rfl | rfl | rfl
    · simp only [List.mem_append, not_or]
      exact ⟨⟨by decide, hU2⟩, by decide⟩
    · decide
    · decide
    · simp only [List.mem_append, not_or]
      exact ⟨by decide, hc⟩
    · simp only [List.mem_append, not_or]
      exact ⟨⟨by decide, hd⟩, by decide⟩
    · decide
  · intro l hl
    simp only [List.mem_cons, List.mem_singleton, List.not_mem_nil, or_false] at hl
    rcases hl with rfl | rfl | rfl | rfl | rfl | rfl <;>
      exact fun h => List.noConfusion h

theorem randString_getElem? (n : Nat) (r : Rand) (i : Nat) (hi : i < n) :
    (randString n r).1[i]? = alphanum[(r i % 256) % 62]? := by
  have hlen : alphanum.length = 62 := by decide
  have h62 : (r i % 256) % 62 < alphanum.length := by
    rw [hlen]
    exact Nat.mod_lt _ (by decide)
  rw [randString_fst, List.getElem?_map, List.getElem?_range hi, Option.map_some',
    List.getElem?_eq_getElem h62]
  simp only [alphanumAt, hlen, List.get_eq_getElem]

/-- The value of the `Call-ID` header of the request of the socket
strategies. -/
theorem tcp_call_id (la p : GoString) (r : Rand) (hp : p ∈ socketSchemes) (hla : '\n' ∉ la) :
    headerValue "Call-ID".toList (renderRequest TCP_OPTIONS la p r).1 =
      some (randString 20 (randRead 2 r).2).1 := by
  unfold headerValue
  rw [tcp_headerLines la p r hp hla]
  rfl

/-- The value of the `Call-ID` header of the request of the WebSocket
strategy. -/
theorem ws_call_id (la p : GoString) (r : Rand) (hp : p ∈ wsSchemes) :
    headerValue "Call-ID".toList (renderRequest WS_OPTIONS la p r).1 =
      some (randString 20 (randRead 2 r).2).1 := by
  unfold headerValue
  rw [ws_headerLines la p r hp]
  rfl

/-- C5.  `randString(n)` returns `n` characters, the `i`-th of which is
`alphanum[b_i mod 62]` for the `i`-th random byte `b_i`, so that every one of
them belongs to the alphabet of 62 characters.  Hence the value of the
`Call-ID` header of every rendered request (socket template with one of `udp`,
`tcp`, `tls` and a local address without line feed; WebSocket template with
`ws` or `wss`) is the result of `randString(20)`: exactly 20 characters of the
alphabet. -/
theorem C5_call_id_alphabet :
    (∀ (n : Nat) (r : Rand),
      (randString n r).1.length = n ∧
      (∀ i, i < n → (randString n r).1[i]? = alphanum[(r i % 256) % 62]?) ∧
      (∀ c ∈ (randString n r).1, c ∈ alphanum)) ∧
    alphanum.length = 62 ∧
    (∀ (la p : GoString) (r : Rand), p ∈ socketSchemes → '\n' ∉ la →
      ∃ cid, headerValue "Call-ID".toList (renderRequest TCP_OPTIONS la p r).1 = some cid ∧
        cid = (randString 20 (randRead 2 r).2).1 ∧ cid.length = 20 ∧ ∀ c ∈ cid, c ∈ alphanum) ∧
    (∀ (la p : GoString) (r : Rand), p ∈ wsSchemes →
      ∃ cid, headerValue "Call-ID".toList (renderRequest WS_OPTIONS la p r).1 = some cid ∧
        cid = (randString 20 (randRead 2 r).2).1 ∧ cid.length = 20 ∧ ∀ c ∈ cid, c ∈ alphanum) := by
  refine ⟨fun n r => ⟨randString_length n r, randString_getElem? n r, fun c hc =>
    mem_randString hc⟩, by decide, fun la p r hp hla => ?_, fun la p r hp => ?_⟩
  · exact ⟨_, tcp_call_id la p r hp hla, rfl, randString_length _ _, fun c hc =>
      mem_randString hc⟩
  · exact ⟨_, ws_call_id la p r hp, rfl, randString_length _ _, fun c hc => mem_randString hc⟩

set_option maxRecDepth 100000 in
/-- C5 at an example: the `Call-ID` of a request for `tcp` from the local
address `10.0.0.1:5060`, and the third character of `randString(5)`. -/
theorem C5_call_id_alphabet_witness :
    ("tcp".toList ∈ socketSchemes ∧ '\n' ∉ "10.0.0.1:5060".toList) ∧
    (∃ cid, headerValue "Call-ID".toList
        (renderRequest TCP_OPTIONS "10.0.0.1:5060".toList "tcp".toList exampleRand).1 = some cid ∧
      cid = (randString 20 (randRead 2 exampleRand).2).1 ∧ cid.length = 20 ∧
      ∀ c ∈ cid, c ∈ alphanum) ∧
    (randString 5 exampleRand).1[2]? = alphanum[(exampleRand 2 % 256) % 62]? :=
  ⟨⟨by decide, by decide⟩,
    C5_call_id_alphabet.2.2.1 "10.0.0.1:5060".toList "tcp".toList exampleRand (by decide)
      (by decide),
    (C5_call_id_alphabet.1 5 exampleRand).2.1 2 (by decide)⟩

theorem strContains_false_of_not_mem {s sub : GoString} {x : Char} (hx : x ∈ sub) (hs : x ∉ s) :
    strContains s sub = false := by
  cases h : strContains s sub
  · rfl
  · exact absurd (((strContains_iff_occurs sub s).mp h).subset hx) hs

theorem tcp_render_no_brace (la p : GoString) (r : Rand) (hp : p ∈ socketSchemes)
    (hla1 : '{' ∉ la) (hla2 : '\n' ∉ la) : '{' ∉ (renderRequest TCP_OPTIONS la p r).1 := by
  obtain ⟨⟨hU1, _⟩, hL1, _⟩ := scheme_plain (Or.inl hp)
  rw [tcp_render_segments la p r hp hla2]
  rw [replaceScan_id_of_not_mem _ (x := '{') (by decide) la hla1,
    replaceScan_id_of_not_mem _ (x := '{') (by decide) la hla1,
    replaceScan_id_of_not_mem _ (x := '{') (by decide) la hla1]
  intro h
  obtain ⟨seg, hseg, hmem⟩ := List.mem_flatten.mp h
  simp only [List.mem_cons, List.mem_singleton, List.not_mem_nil, or_false] at hseg
  rcases hseg with rfl | rfl | rfl | rfl | rfl | rfl | rfl | rfl | rfl | rfl | rfl | rfl | rfl
  · exact absurd hmem (by decide)
  · exact hL1 hmem
  · exact absurd hmem (by decide)
  · exact hU1 hmem
  · exact absurd hmem (by decide)
  · exact hla1 hmem
  · exact absurd hmem (by decide)
  · exact hL1 hmem
  · exact absurd hmem (by decide)
  · exact (randString_plain _ _).1 hmem
  · exact absurd hmem (by decide)
  · exact (itoa_plain _).1 hmem
  · exact absurd hmem (by decide)

/-- C6.  For a scheme `p` among `udp`, `tcp`, `tls`, a local address `la` without
'{' and without line feed and any random bytes, the request rendered from
`TCP_OPTIONS` is the text of the eight lines below, each closed by CR LF, and an
empty line; `c` is `randString(20)` on the bytes after the first two, and the
sequence number is `256 * b0 + b1` for the first two bytes, at most 65535, in
decimal.  The result contains no '{', so no `{{...}}` placeholder is left. -/
theorem C6_socket_request_text (la p : GoString) (r : Rand) (hp : p ∈ socketSchemes)
    (hla1 : '{' ∉ la) (hla2 : '\n' ∉ la) :
    (renderRequest TCP_OPTIONS la p r).1 =
      joinLines [
        "OPTIONS sip:host@invalid:1739;transport=".toList ++ strToLower p ++ " SIP/2.0".toList,
        "Via: SIP/2.0/".toList ++ strToUpper p ++ " ".toList ++ la ++
          ";branch=z9hG4bKr1t13cmvZDjtg".toList,
        "Max-Forwards: 70".toList,
        "From: \"\" <sip:monitor@invalid>".toList,
        "To: <sip:host@invalid;transport=".toList ++ strToLower p ++ ">".toList,
        "Call-ID: ".toList ++ (randString 20 (randRead 2 r).2).1,
        "CSeq: ".toList ++ itoa (256 * (r 0 % 256) + r 1 % 256) ++ " OPTIONS".toList,
        "Content-Length: 0".toList,
        []] ∧
    bigEndianUint16 (randRead 2 r).1 = 256 * (r 0 % 256) + r 1 % 256 ∧
    256 * (r 0 % 256) + r 1 % 256 ≤ 65535 ∧
    itoa (256 * (r 0 % 256) + r 1 % 256) = (toString (256 * (r 0 % 256) + r 1 % 256)).toList ∧
    '{' ∉ (renderRequest TCP_OPTIONS la p r).1 ∧
    strContains (renderRequest TCP_OPTIONS la p r).1 "\x7b\x7b".toList = false := by
  have hb := tcp_render_no_brace la p r hp hla1 hla2
  refine ⟨tcp_render_lines la p r hp hla1 hla2, rfl, ?_, rfl, hb,
    strContains_false_of_not_mem (by decide) hb⟩
  have h0 : r 0 % 256 < 256 := Nat.mod_lt _ (by decide)
  have h1 : r 1 % 256 < 256 := Nat.mod_lt _ (by decide)
  omega

set_option maxRecDepth 100000 in
/-- C6 at an example: `tcp` from `10.0.0.1:5060`, with the random bytes of
`exampleRand` (250, 1 for the sequence number 64001). -/
theorem C6_socket_request_text_witness :
    ("tcp".toList ∈ socketSchemes ∧ '{' ∉ "10.0.0.1:5060".toList ∧
      '\n' ∉ "10.0.0.1:5060".toList) ∧
    (renderRequest TCP_OPTIONS "10.0.0.1:5060".toList "tcp".toList exampleRand).1 =
      joinLines [
        "OPTIONS sip:host@invalid:1739;transport=tcp SIP/2.0".toList,
        "Via: SIP/2.0/TCP 10.0.0.1:5060;branch=z9hG4bKr1t13cmvZDjtg".toList,
        "Max-Forwards: 70".toList,
        "From: \"\" <sip:monitor@invalid>".toList,
        "To: <sip:host@invalid;transport=tcp>".toList,
        "Call-ID: 8FMTahov29GNUbipw3AH".toList,
        "CSeq: 64001 OPTIONS".toList,
        "Content-Length: 0".toList,
        []] :=
  ⟨⟨by decide, by decide, by decide⟩,
    (C6_socket_request_text "10.0.0.1:5060".toList "tcp".toList exampleRand (by decide)
      (by decide) (by decide)).1.trans (by decide)⟩

set_option maxRecDepth 100000 in
/-- C7, counterexample.  The request rendered for `ws` (random bytes of
`exampleRand`) has no line `Max-Forwards: 70` among its headers, and the text
`Max-Forwards` occurs nowhere in it; its header names are `Via`, `To`, `From`,
`Call-ID`, `CSeq`, `Content-Length`, while the socket request for `tcp` has
`Max-Forwards` among them. -/
theorem C7_counterexample :
    "Max-Forwards: 70".toList ∉
      headerLines (renderRequest WS_OPTIONS [] "ws".toList exampleRand).1 ∧
    strContains (renderRequest WS_OPTIONS [] "ws".toList exampleRand).1
      "Max-Forwards".toList = false ∧
    (headerLines (renderRequest WS_OPTIONS [] "ws".toList exampleRand).1).map headerName =
      ["Via".toList, "To".toList, "From".toList, "Call-ID".toList, "CSeq".toList,
        "Content-Length".toList] ∧
    "Max-Forwards: 70".toList ∈
      headerLines (renderRequest TCP_OPTIONS "10.0.0.1:5060".toList "tcp".toList exampleRand).1 := by
  decide

/-- C7, amended.  For `ws` and `wss` and all random bytes the request rendered
from `WS_OPTIONS` carries exactly the six header lines below: `Via`, `To`,
`From`, `Call-ID`, `CSeq` and `Content-Length: 0`, and no `Max-Forwards` header.
The socket request (for `udp`, `tcp`, `tls` and an address without line feed)
carries the same header names and `Max-Forwards` in addition. -/
theorem C7_ws_header_set (p : GoString) (r : Rand) (hp : p ∈ wsSchemes) :
    headerLines (renderRequest WS_OPTIONS [] p r).1 =
      [ "Via: SIP/2.0/".toList ++ strToUpper p ++
          " 81okseq92jb7.invalid;branch=z9hG4bK5964427".toList,
        "To: <sip:ba_user@none>".toList,
        "From: <sip:anonymous.8scs48@anonymous.invalid>;tag=fql2c8mlg3".toList,
        "Call-ID: ".toList ++ (randString 20 (randRead 2 r).2).1,
        "CSeq: ".toList ++ itoa (256 * (r 0 % 256) + r 1 % 256) ++ " OPTIONS".toList,
        "Content-Length: 0".toList ] ∧
    (headerLines (renderRequest WS_OPTIONS [] p r).1).map headerName =
      ["Via".toList, "To".toList, "From".toList, "Call-ID".toList, "CSeq".toList,
        "Content-Length".toList] ∧
    "Content-Length: 0".toList ∈ headerLines (renderRequest WS_OPTIONS [] p r).1 ∧
    "Max-Forwards".toList ∉ (headerLines (renderRequest WS_OPTIONS [] p r).1).map headerName ∧
    (∀ (la q : GoString), q ∈ socketSchemes → '\n' ∉ la →
      (headerLines (renderRequest TCP_OPTIONS la q r).1).map headerName =
        ["Via".toList, "Max-Forwards".toList, "From".toList, "To".toList, "Call-ID".toList,
          "CSeq".toList, "Content-Length".toList]) := by
  have hnames : (headerLines (renderRequest WS_OPTIONS [] p r).1).map headerName =
      ["Via".toList, "To".toList, "From".toList, "Call-ID".toList, "CSeq".toList,
        "Content-Length".toList] := by
    rw [ws_headerLines [] p r hp]
    rfl
  refine ⟨ws_headerLines [] p r hp, hnames, ?_, ?_, fun la q hq hla => ?_⟩
  · rw [ws_headerLines [] p r hp]
    simp only [List.mem_cons, List.mem_singleton, true_or, or_true]
  · rw [hnames]
    decide
  · rw [tcp_headerLines la q r hq hla]
    rfl

set_option maxRecDepth 100000 in
/-- C7, the amended statement at the scheme `wss`. -/
theorem C7_ws_header_set_witness :
    "wss".toList ∈ wsSchemes ∧
    (headerLines (renderRequest WS_OPTIONS [] "wss".toList exampleRand).1).map headerName =
      ["Via".toList, "To".toList, "From".toList, "Call-ID".toList, "CSeq".toList,
        "Content-Length".toList] :=
  ⟨by decide, (C7_ws_header_set "wss".toList exampleRand (by decide)).2.1⟩

/-! ## The read loop of `querySIP` -/

theorem strContains_false_of_append {a b sub : GoString}
    (h : strContains (a ++ b) sub = false) : strContains a sub = false := by
  cases h1 : strContains a sub
  · rfl
  · have h2 : sub <:+: a ++ b :=
      ((strContains_iff_occurs sub a).mp h1).trans (List.prefix_append a b).isInfix
    rw [(strContains_iff_occurs sub (a ++ b)).mpr h2] at h
    exact Bool.noConfusion h

/-- As long as the buffer has neither the terminator nor 65536 bytes, the loop
only appends what it reads. -/
theorem readLoop_incomplete (elapsed : Nat) :
    ∀ (chunks : List GoString) (buf : GoString) (rest : List ReadResult),
      strContains (buf ++ chunks.flatten) terminator = false →
      (buf ++ chunks.flatten).length < 65536 →
      readLoop elapsed buf (chunks.map okRead ++ rest) =
        readLoop elapsed (buf ++ chunks.flatten) rest
  | [], buf, rest, _, _ => by simp
  | c :: cs, buf, rest, h1, h2 => by
    have e : buf ++ (c :: cs).flatten = (buf ++ c) ++ cs.flatten := by simp
    rw [e] at h1 h2
    have h3 : strContains (buf ++ c) terminator = false := strContains_false_of_append h1
    have h4 : ¬ (buf ++ c).length ≥ 65536 := by
      have := List.length_append (buf ++ c) cs.flatten
      omega
    have ih := readLoop_incomplete elapsed cs (buf ++ c) rest h1 h2
    rw [e, ← ih]
    rw [List.map_cons, List.cons_append, readLoop]
    simp only [okRead]
    have h5 : (strContains (buf ++ c) "\r\n\r\n".toList || decide ((buf ++ c).length ≥ 65536))
        = false := by
      rw [Bool.or_eq_false_iff]
      exact ⟨h3, decide_eq_false h4⟩
    rw [h5]
    rfl

theorem readLoop_final (elapsed : Nat) (buf last : GoString) (rest : List ReadResult)
    (h : strContains (buf ++ last) terminator = true ∨ (buf ++ last).length ≥ 65536) :
    readLoop elapsed buf (okRead last :: rest) = [Msg.response ⟨buf ++ last, elapsed⟩] := by
  rw [readLoop]
  simp only [okRead]
  have h5 : (strContains (buf ++ last) "\r\n\r\n".toList ||
      decide ((buf ++ last).length ≥ 65536)) = true := by
    rw [Bool.or_eq_true]
    rcases h with h | h
    · exact Or.inl h
    · exact Or.inr (decide_eq_true h)
  rw [h5]
  rfl

theorem querySIP_ok (url : URL) (skipVerify : Bool) (net : SocketNet) (r : Rand)
    (la : GoString) (hdial : ∀ kind, net.dial kind url.Host = Except.ok la)
    (hwrite : ∀ req, net.write req = none) :
    querySIP url skipVerify net r =
      Msg.request (renderRequest TCP_OPTIONS la url.Scheme r).1 ::
        readLoop net.elapsed [] net.reads := by
  unfold querySIP
  simp only [hdial, ite_self, hwrite]

/-- C8.  Let the reads all succeed, let the chunks before the last one together
be shorter than 65536 bytes and free of CR LF CR LF, and let all chunks
together contain it.  Then the read loop sends nothing as long as only chunks
before the last one have come, and once the last chunk has come it sends exactly
one message, the response whose body is all chunks in a row; `querySIP` as a
whole then sends the request event and this one response.  Nothing is assumed
about where the terminator lies, so it may be split between chunks. -/
theorem C8_read_loop_accumulates (elapsed : Nat) (chunks : List GoString) (last : GoString)
    (hshort : chunks.flatten.length < 65536)
    (hopen : strContains chunks.flatten terminator = false)
    (hdone : strContains (chunks.flatten ++ last) terminator = true) :
    (∀ k, k ≤ chunks.length → readLoop elapsed [] ((chunks.take k).map okRead) = []) ∧
    readLoop elapsed [] ((chunks ++ [last]).map okRead) =
      [Msg.response ⟨(chunks ++ [last]).flatten, elapsed⟩] ∧
    (∀ (url : URL) (skipVerify : Bool) (r : Rand) (la : GoString),
      querySIP url skipVerify (feedSocket la ((chunks ++ [last]).map okRead) elapsed) r =
        [Msg.request (renderRequest TCP_OPTIONS la url.Scheme r).1,
          Msg.response ⟨(chunks ++ [last]).flatten, elapsed⟩]) := by
  have hall : readLoop elapsed [] ((chunks ++ [last]).map okRead) =
      [Msg.response ⟨(chunks ++ [last]).flatten, elapsed⟩] := by
    rw [List.map_append, readLoop_incomplete elapsed chunks [] _ (by simpa using hopen)
      (by simpa using hshort)]
    rw [List.nil_append, List.map_cons, List.map_nil,
      readLoop_final elapsed _ last [] (Or.inl hdone)]
    simp
  refine ⟨fun k hk => ?_, hall, fun url skipVerify r la => ?_⟩
  · have hsplit : chunks.flatten = (chunks.take k).flatten ++ (chunks.drop k).flatten := by
      rw [← List.flatten_append, List.take_append_drop]
    have h1 : strContains ([] ++ (chunks.take k).flatten) terminator = false := by
      rw [hsplit] at hopen
      simpa using strContains_false_of_append hopen
    have h2 : ([] ++ (chunks.take k).flatten).length < 65536 := by
      have := congrArg List.length hsplit
      rw [List.length_append] at this
      simp only [List.nil_append]
      omega
    have := readLoop_incomplete elapsed (chunks.take k) [] [] h1 h2
    rw [List.append_nil] at this
    rw [this]
    rfl
  · rw [querySIP_ok url skipVerify _ r la (fun _ => rfl) (fun _ => rfl)]
    show Msg.request _ :: readLoop elapsed [] ((chunks ++ [last]).map okRead) = _
    rw [hall]

set_option maxRecDepth 100000 in
/-- C8 at an example in which the terminator is split between the chunks:
`...\r\n\r` comes first and `\n` comes last. -/
theorem C8_read_loop_accumulates_witness :
    (["SIP/2.0 200 OK\r\nVia: x".toList, "\r\n\r".toList].flatten.length < 65536 ∧
      strContains ["SIP/2.0 200 OK\r\nVia: x".toList, "\r\n\r".toList].flatten terminator
        = false ∧
      strContains (["SIP/2.0 200 OK\r\nVia: x".toList, "\r\n\r".toList].flatten ++ "\n".toList)
        terminator = true) ∧
    readLoop 7 [] (["SIP/2.0 200 OK\r\nVia: x".toList, "\r\n\r".toList, "\n".toList].map okRead) =
      [Msg.response ⟨"SIP/2.0 200 OK\r\nVia: x\r\n\r\n".toList, 7⟩] :=
  ⟨⟨by decide, by decide, by decide⟩,
    (C8_read_loop_accumulates 7 ["SIP/2.0 200 OK\r\nVia: x".toList, "\r\n\r".toList] "\n".toList
      (by decide) (by decide) (by decide)).2.1.trans (by decide)⟩

theorem nearCapChunks_flatten : nearCapChunks.flatten = List.replicate 65535 'a' := by
  have h : ∀ (k n : Nat), (List.replicate k (List.replicate n 'a')).flatten =
      List.replicate (k * n) 'a' := by
    intro k n
    induction k with
    | zero => simp
    | succ k ih =>
      rw [List.replicate_succ, List.flatten_cons, ih, List.append_replicate_replicate]
      congr 1
      rw [Nat.succ_mul, Nat.add_comm]
  rw [nearCapChunks, List.flatten_cons, h, List.append_replicate_replicate]

theorem overCap_chunks_small : ∀ c ∈ nearCapChunks ++ [overCapChunk], c.length ≤ 4096 := by
  intro c hc
  simp only [nearCapChunks, overCapChunk, List.mem_append, List.mem_cons, List.mem_singleton,
    List.not_mem_nil, or_false] at hc
  rcases hc with (rfl | hc) | rfl
  · rw [List.length_replicate]
    omega
  · rw [List.eq_of_mem_replicate hc, List.length_replicate]
  · rw [List.length_replicate]

theorem overCap_readLoop :
    readLoop 0 [] ((nearCapChunks ++ [overCapChunk]).map okRead) =
      [Msg.response ⟨List.replicate 69631 'a', 0⟩] := by
  have hfree : strContains ([] ++ nearCapChunks.flatten) terminator = false := by
    rw [List.nil_append, nearCapChunks_flatten]
    exact strContains_false_of_not_mem (x := '\r') (by decide)
      (fun h => absurd (List.eq_of_mem_replicate h) (by decide))
  have hlen : ([] ++ nearCapChunks.flatten).length < 65536 := by
    rw [List.nil_append, nearCapChunks_flatten, List.length_replicate]
    decide
  rw [List.map_append, readLoop_incomplete 0 nearCapChunks [] _ hfree hlen, List.nil_append,
    List.map_cons, List.map_nil, readLoop_final 0 _ overCapChunk [] (Or.inr ?_)]
  · rw [nearCapChunks_flatten, overCapChunk, List.append_replicate_replicate]
  · rw [nearCapChunks_flatten, overCapChunk, List.append_replicate_replicate,
      List.length_replicate]
    decide

/-- C9, counterexample.  Seventeen successful reads, none longer than 4096
bytes and none with a terminator: after sixteen of them the buffer holds 65535
bytes, so the loop reads on, and the response it then reports has 69631 bytes,
more than 65536. -/
theorem C9_counterexample :
    (∀ c ∈ nearCapChunks ++ [overCapChunk], c.length ≤ 4096) ∧
    readLoop 0 [] ((nearCapChunks ++ [overCapChunk]).map okRead) =
      [Msg.response ⟨List.replicate 69631 'a', 0⟩] ∧
    (∀ url skipVerify r la,
      querySIP url skipVerify
          (feedSocket la ((nearCapChunks ++ [overCapChunk]).map okRead) 0) r =
        [Msg.request (renderRequest TCP_OPTIONS la url.Scheme r).1,
          Msg.response ⟨List.replicate 69631 'a', 0⟩]) ∧
    (List.replicate 69631 'a').length = 69631 ∧ 65536 < 69631 := by
  refine ⟨overCap_chunks_small, overCap_readLoop, fun url skipVerify r la => ?_,
    List.length_replicate _ _, by decide⟩
  rw [querySIP_ok url skipVerify _ r la (fun _ => rfl) (fun _ => rfl)]
  show Msg.request _ :: readLoop 0 [] ((nearCapChunks ++ [overCapChunk]).map okRead) = _
  rw [overCap_readLoop]

/-- The bound on the buffer that the loop keeps: below 65536 bytes whenever it
reads, hence at most 65535 + 4096 bytes when it reports. -/
theorem readLoop_body_bound (elapsed : Nat) :
    ∀ (reads : List ReadResult) (buf : GoString), buf.length < 65536 →
      (∀ rd ∈ reads, rd.data.length ≤ 4096) →
      ∀ resp, Msg.response resp ∈ readLoop elapsed buf reads →
        resp.response.length ≤ 65535 + 4096
  | [], _, _, _, resp, h => by simp [readLoop] at h
  | rd :: rest, buf, hbuf, hreads, resp, h => by
    have hrd : rd.data.length ≤ 4096 := hreads rd (List.mem_cons_self _ _)
    rw [readLoop] at h
    cases herr : rd.err with
    | some err =>
      rw [herr] at h
      simp at h
    | none =>
      rw [herr] at h
      dsimp only at h
      split at h
      · simp only [List.mem_singleton, Msg.response.injEq] at h
        subst h
        simp only [List.length_append]
        omega
      · rename_i hcond
        have hlt : (buf ++ rd.data).length < 65536 := by
          by_contra hge
          exact hcond (by
            rw [Bool.or_eq_true]
            exact Or.inr (decide_eq_true (by omega)))
        exact readLoop_body_bound elapsed rest (buf ++ rd.data) hlt
          (fun x hx => hreads x (List.mem_cons_of_mem _ hx)) resp h

/-- C9, amended.  The loop stops reading as soon as the buffer has reached 65536
bytes, but it does not cut the buffer: when no read returns more than the 4096
bytes of `tmp`, the body of a response reported by `querySIP` has at most
65535 + 4096 = 69631 bytes. -/
theorem C9_body_at_most_cap_plus_chunk (url : URL) (skipVerify : Bool) (net : SocketNet)
    (r : Rand) (resp : sipResponse)
    (hreads : ∀ rd ∈ net.reads, rd.data.length ≤ 4096)
    (hresp : Msg.response resp ∈ querySIP url skipVerify net r) :
    resp.response.length ≤ 69631 ∧ Msg.response resp ∈ readLoop net.elapsed [] net.reads := by
  have hloop : Msg.response resp ∈ readLoop net.elapsed [] net.reads := by
    unfold querySIP at hresp
    dsimp only at hresp
    split at hresp
    · simp at hresp
    · split at hresp
      · simp at hresp
      · simpa using hresp
  exact ⟨readLoop_body_bound net.elapsed net.reads [] (by simp) hreads resp hloop, hloop⟩

/-- C9, the amended statement at the reads of the counterexample, where the
bound is reached. -/
theorem C9_body_at_most_cap_plus_chunk_witness :
    (∀ rd ∈ (feedSocket "10.0.0.1:5060".toList
        ((nearCapChunks ++ [overCapChunk]).map okRead) 0).reads, rd.data.length ≤ 4096) ∧
    (List.replicate 69631 'a').length ≤ 69631 := by
  have hreads : ∀ rd ∈ (feedSocket "10.0.0.1:5060".toList
      ((nearCapChunks ++ [overCapChunk]).map okRead) 0).reads, rd.data.length ≤ 4096 := by
    intro rd hrd
    obtain ⟨c, hc, rfl⟩ := List.mem_map.mp hrd
    exact overCap_chunks_small c hc
  refine ⟨hreads, ?_⟩
  have hmem : Msg.response ⟨List.replicate 69631 'a', 0⟩ ∈
      querySIP tcpURL false (feedSocket "10.0.0.1:5060".toList
        ((nearCapChunks ++ [overCapChunk]).map okRead) 0) exampleRand := by
    rw [querySIP_ok tcpURL false _ exampleRand "10.0.0.1:5060".toList (fun _ => rfl)
      (fun _ => rfl)]
    exact List.mem_cons_of_mem _ (by
      show _ ∈ readLoop 0 [] ((nearCapChunks ++ [overCapChunk]).map okRead)
      rw [overCap_readLoop]
      exact List.mem_singleton_self _)
  exact (C9_body_at_most_cap_plus_chunk tcpURL false _ exampleRand
    ⟨List.replicate 69631 'a', 0⟩ hreads hmem).1

/-! ## The reply of `queryWS` -/

/-- A character other than CR at the head of the unescaped text stood at the
head of the payload. -/
theorem unescape_head {s t : GoString} {x : Char} (hx : x ≠ '\r')
    (h : replaceScan escapedCRLF CRLF 0 s = x :: t) :
    ∃ s1, s = x :: s1 ∧ t = replaceScan escapedCRLF CRLF 0 s1 := by
  cases s with
  | nil => rw [replaceScan_nil] at h; cases h
  | cons c cs =>
    rw [replaceScan_cons escapedCRLF CRLF (by decide)] at h
    split at h
    · exact absurd (List.cons.inj h).1.symm hx
    · obtain ⟨h1, h2⟩ := List.cons.inj h
      exact ⟨cs, by rw [h1], h2.symm⟩

theorem unescape_no_escape_left :
    ∀ (n : Nat) (s : GoString), s.length ≤ n →
      ¬ escapedCRLF <:+: replaceScan escapedCRLF CRLF 0 s := by
  intro n
  induction n with
  | zero =>
    intro s hs h
    have : s = [] := List.length_eq_zero.mp (by omega)
    subst this
    rw [replaceScan_nil] at h
    have := h.length_le
    simp [escapedCRLF] at this
  | succ n ih =>
    intro s hs h
    cases s with
    | nil =>
      rw [replaceScan_nil] at h
      have := h.length_le
      simp [escapedCRLF] at this
    | cons c cs =>
      have hcs : cs.length ≤ n := by simp at hs; omega
      rw [replaceScan_cons escapedCRLF CRLF (by decide)] at h
      split at h
      · have hdrop : (List.drop escapedCRLF.length (c :: cs)).length ≤ n := by
          have h4 : escapedCRLF.length = 4 := rfl
          simp only [List.length_drop, List.length_cons, h4]
          omega
        change escapedCRLF <:+: '\r' :: '\n' :: replaceScan escapedCRLF CRLF 0 _ at h
        rcases List.infix_cons_iff.mp h with h1 | h1
        · obtain ⟨t, ht⟩ := h1
          exact absurd (List.cons.inj ht).1 (by decide)
        · rcases List.infix_cons_iff.mp h1 with h2 | h2
          · obtain ⟨t, ht⟩ := h2
            exact absurd (List.cons.inj ht).1 (by decide)
          · exact ih _ hdrop h2
      · rename_i hnp
        rcases List.infix_cons_iff.mp h with h1 | h1
        · obtain ⟨t, ht⟩ := h1
          change '\\' :: 'r' :: '\\' :: 'n' :: t = c :: replaceScan escapedCRLF CRLF 0 cs at ht
          obtain ⟨hc, ht1⟩ := List.cons.inj ht
          obtain ⟨s1, hs1, ht2⟩ := unescape_head (by decide) ht1.symm
          obtain ⟨s2, hs2, ht3⟩ := unescape_head (by decide) ht2.symm
          obtain ⟨s3, hs3, _⟩ := unescape_head (by decide) ht3.symm
          apply hnp
          rw [List.isPrefixOf_iff_prefix, hs1, hs2, hs3, ← hc]
          exact ⟨s3, rfl⟩
        · exact ih cs hcs h1

/-- An occurrence of the escape in the payload never lies across the start of
another occurrence. -/
theorem noCross_escape (a b : GoString) : NoCross escapedCRLF a (escapedCRLF ++ b) := by
  intro k h0 hk _ hp
  have hk4 : k < 4 := hk
  have h3 := List.isPrefixOf_iff_prefix.mpr
    (List.prefix_of_prefix_length_le hp (List.prefix_append escapedCRLF b)
      (by simp only [List.length_drop]; omega))
  interval_cases k <;> revert h3 <;> decide

theorem queryWS_ok (url : URL) (addr : GoString) (skipVerify : Bool) (net : WSNet) (r : Rand)
    (message : GoString) (hdial : net.dial addr skipVerify = none)
    (hwrite : ∀ req, net.write req = none) (hread : net.read = some (Except.ok message)) :
    queryWS url addr skipVerify net r =
      [Msg.request (renderRequest WS_OPTIONS [] url.Scheme r).1,
        Msg.response ⟨strReplaceAll message "\\r\\n".toList "\r\n".toList, net.elapsed⟩] := by
  unfold queryWS
  simp only [hdial, hwrite, hread]

/-- C10.  When dial and write succeed and the frame `m` arrives, `queryWS` sends
the request event and one response whose body is `m` passed through
`strings.ReplaceAll(m, "\\r\\n", "\r\n")`.  This body is `m` with every escaped
line end turned into CR LF: unescaping goes through a text piece by piece around
each escape, a payload without escape is reported unchanged, and no escape is
left in the body.  When `main` (for `ws` or `wss`) ends on this response, its
exit code is 0 exactly when the unescaped body contains "SIP/2.0 200 OK". -/
theorem C10_ws_body_unescaped (url : URL) (addr : GoString) (skipVerify : Bool) (net : WSNet)
    (r : Rand) (m : GoString) (hdial : net.dial addr skipVerify = none)
    (hwrite : ∀ req, net.write req = none) (hread : net.read = some (Except.ok m)) :
    queryWS url addr skipVerify net r =
      [Msg.request (renderRequest WS_OPTIONS [] url.Scheme r).1,
        Msg.response ⟨strReplaceAll m escapedCRLF CRLF, net.elapsed⟩] ∧
    strContains (strReplaceAll m escapedCRLF CRLF) escapedCRLF = false ∧
    (strContains m escapedCRLF = false → strReplaceAll m escapedCRLF CRLF = m) ∧
    (∀ a b, strReplaceAll (a ++ escapedCRLF ++ b) escapedCRLF CRLF =
      strReplaceAll a escapedCRLF CRLF ++ CRLF ++ strReplaceAll b escapedCRLF CRLF) ∧
    (∀ (fuel : Nat) (debug : Bool) (w : World) (h : Halt) (resp : sipResponse),
      w.ws = net → w.rand = r → (url.Scheme = "wss".toList ∨ url.Scheme = "ws".toList) →
      main fuel debug addr skipVerify url w = some h → h.cause = Cause.response resp →
        resp.response = strReplaceAll m escapedCRLF CRLF ∧
        (h.code = 0 ↔
          strContains (strReplaceAll m escapedCRLF CRLF) "SIP/2.0 200 OK".toList = true)) := by
  have hq := queryWS_ok url addr skipVerify net r m hdial hwrite hread
  have hne : escapedCRLF ≠ [] := by decide
  refine ⟨hq, ?_, fun hfree => ?_, fun a b => ?_, ?_⟩
  · rw [strReplaceAll_eq _ _ hne]
    cases hc : strContains (replaceScan escapedCRLF CRLF 0 m) escapedCRLF
    · rfl
    · exact absurd ((strContains_iff_occurs _ _).mp hc)
        (unescape_no_escape_left m.length m (le_refl _))
  · rw [strReplaceAll_eq _ _ hne]
    exact replaceScan_id_of_not_contains CRLF hne m hfree
  · rw [strReplaceAll_eq _ _ hne, strReplaceAll_eq _ _ hne, strReplaceAll_eq _ _ hne,
      List.append_assoc, replaceScan_append hne (noCross_escape a b),
      replaceScan_old_append _ _ hne, List.append_assoc]
  · intro fuel debug w h resp hws hrand hscheme hrun hcause
    rw [main_ws fuel debug addr skipVerify url w hscheme, hws, hrand, hq] at hrun
    have hsound := mainLoop_sound _ _ 5 (main_logger_fatal debug) _ _ _ _ _ _ hrun
    have hmem := hsound.origin.1 resp hcause
    have hresp : resp = ⟨strReplaceAll m escapedCRLF CRLF, net.elapsed⟩ := by
      simp only [List.mem_cons, List.mem_singleton, List.not_mem_nil, or_false,
        Msg.response.injEq] at hmem
      rcases hmem with hmem | hmem
      · cases hmem
      · exact hmem
    refine ⟨by rw [hresp], ?_⟩
    rw [hsound.code_facts.1]
    constructor
    · rintro ⟨r2, hr2, hc⟩
      rw [hcause] at hr2
      cases hr2
      rw [hresp] at hc
      exact hc
    · intro hc
      exact ⟨resp, hcause, by rw [hresp]; exact hc⟩

set_option maxRecDepth 100000 in
/-- C10 at an example: a reply with escaped line ends comes back over `ws`; the
body that `queryWS` reports has real line ends, and `main` exits with 0. -/
theorem C10_ws_body_unescaped_witness :
    ((replyWS escapedReply 1000000).dial "ws://example.org:8080".toList false = none ∧
      (∀ req, (replyWS escapedReply 1000000).write req = none) ∧
      (replyWS escapedReply 1000000).read = some (Except.ok escapedReply)) ∧
    queryWS wsURL "ws://example.org:8080".toList false (replyWS escapedReply 1000000)
        exampleRand =
      [Msg.request (renderRequest WS_OPTIONS [] "ws".toList exampleRand).1,
        Msg.response ⟨"SIP/2.0 200 OK\r\nContent-Length: 0\r\n\r\n".toList, 1000000⟩] ∧
    main 3 false "ws://example.org:8080".toList false wsURL escapedReplyWorld =
      some ⟨Cause.response ⟨"SIP/2.0 200 OK\r\nContent-Length: 0\r\n\r\n".toList, 1000000⟩,
        0, false, Second⟩ :=
  ⟨⟨rfl, fun _ => rfl, rfl⟩,
    (C10_ws_body_unescaped wsURL "ws://example.org:8080".toList false
      (replyWS escapedReply 1000000) exampleRand escapedReply rfl (fun _ => rfl) rfl).1.trans
      (by decide),
    by decide⟩

/-! ## The events of a strategy -/

/-- The read loop sends nothing, or one error, or one response. -/
theorem readLoop_shape (elapsed : Nat) :
    ∀ (reads : List ReadResult) (buf : GoString),
      readLoop elapsed buf reads = [] ∨
      (∃ err, readLoop elapsed buf reads = [Msg.responseErr err]) ∨
      (∃ resp, readLoop elapsed buf reads = [Msg.response resp])
  | [], _ => Or.inl rfl
  | rd :: rest, buf => by
    rw [readLoop]
    cases herr : rd.err with
    | some err => exact Or.inr (Or.inl ⟨err, rfl⟩)
    | none =>
      dsimp only
      split
      · exact Or.inr (Or.inr ⟨_, rfl⟩)
      · exact readLoop_shape elapsed rest (buf ++ rd.data)

theorem bufferDone_iff (buf : GoString) :
    (strContains buf "\r\n\r\n".toList || decide (buf.length ≥ 65536)) = true ↔
      bufferDone buf := by
  rw [Bool.or_eq_true, decide_eq_true_iff]
  rfl

/-- The read loop sends something exactly when the reads are decisive. -/
theorem readLoop_ne_nil_iff (elapsed : Nat) :
    ∀ (reads : List ReadResult) (buf : GoString),
      readLoop elapsed buf reads ≠ [] ↔ Decisive buf reads
  | [], buf => by
    constructor
    · intro h
      exact absurd rfl h
    · rintro ⟨pre, rd, post, h, _⟩
      cases pre <;> cases h
  | rd :: rest, buf => by
    rw [readLoop]
    cases herr : rd.err with
    | some err =>
      constructor
      · intro _
        exact ⟨[], rd, rest, rfl, Or.inl (by rw [herr]; rfl)⟩
      · intro _ h
        cases h
    | none =>
      dsimp only
      by_cases hdone : bufferDone (buf ++ rd.data)
      · rw [if_pos ((bufferDone_iff _).mpr hdone)]
        constructor
        · intro _
          exact ⟨[], rd, rest, rfl, Or.inr (by simpa using hdone)⟩
        · intro _ h
          cases h
      · rw [if_neg (fun h => hdone ((bufferDone_iff _).mp h))]
        rw [readLoop_ne_nil_iff elapsed rest (buf ++ rd.data)]
        constructor
        · rintro ⟨pre, rd2, post, hsplit, hdec⟩
          refine ⟨rd :: pre, rd2, post, by rw [hsplit]; rfl, ?_⟩
          rcases hdec with hdec | hdec
          · exact Or.inl hdec
          · exact Or.inr (by simpa [List.append_assoc] using hdec)
        · rintro ⟨pre, rd2, post, hsplit, hdec⟩
          cases pre with
          | nil =>
            obtain ⟨h1, _⟩ := List.cons.inj hsplit
            subst h1
            rcases hdec with hdec | hdec
            · rw [herr] at hdec
              cases hdec
            · exact absurd (by simpa using hdec) hdone
          | cons x pre2 =>
            obtain ⟨h1, h2⟩ := List.cons.inj hsplit
            subst h1
            refine ⟨pre2, rd2, post, h2, ?_⟩
            rcases hdec with hdec | hdec
            · exact Or.inl hdec
            · exact Or.inr (by simpa [List.append_assoc] using hdec)

/-- What the four shapes have in common: at most one "request sent" event, at
most one outcome event, never a response together with an error, and every
"request sent" event in front of every outcome event. -/
theorem EventShape.facts {msgs : List Msg} (h : EventShape msgs) :
    requestCount msgs ≤ 1 ∧ outcomeCount msgs ≤ 1 ∧
    ¬ (∃ resp err, Msg.response resp ∈ msgs ∧ Msg.responseErr err ∈ msgs) ∧
    (∀ (i j : Nat) (m1 m2 : Msg), msgs[i]? = some m1 → m1.isRequest = true →
      msgs[j]? = some m2 → m2.isOutcome = true → i < j) := by
  rcases h with ⟨e, rfl⟩ | ⟨req, rfl⟩ | ⟨req, e, rfl⟩ | ⟨req, resp, rfl⟩
  · refine ⟨Nat.zero_le _, le_refl _, ?_, ?_⟩
    · rintro ⟨resp, err, h1, _⟩
      simp at h1
    · intro i j m1 m2 h1 hr h2 ho
      rcases i with _ | i
      · simp only [List.getElem?_cons_zero, Option.some.injEq] at h1
        subst h1
        cases hr
      · simp at h1
  · refine ⟨le_refl _, Nat.zero_le _, ?_, ?_⟩
    · rintro ⟨resp, err, h1, _⟩
      simp at h1
    · intro i j m1 m2 h1 hr h2 ho
      rcases j with _ | j
      · simp only [List.getElem?_cons_zero, Option.some.injEq] at h2
        subst h2
        cases ho
      · simp at h2
  · refine ⟨le_refl _, le_refl _, ?_, ?_⟩
    · rintro ⟨resp, err, h1, _⟩
      simp at h1
    · intro i j m1 m2 h1 hr h2 ho
      rcases j with _ | j
      · simp only [List.getElem?_cons_zero, Option.some.injEq] at h2
        subst h2
        cases ho
      · rcases i with _ | _ | i
        · omega
        · simp only [List.getElem?_cons_succ, List.getElem?_cons_zero, Option.some.injEq] at h1
          subst h1
          cases hr
        · simp at h1
  · refine ⟨le_refl _, le_refl _, ?_, ?_⟩
    · rintro ⟨resp2, err, _, h2⟩
      simp at h2
    · intro i j m1 m2 h1 hr h2 ho
      rcases j with _ | j
      · simp only [List.getElem?_cons_zero, Option.some.injEq] at h2
        subst h2
        cases ho
      · rcases i with _ | _ | i
        · omega
        · simp only [List.getElem?_cons_succ, List.getElem?_cons_zero, Option.some.injEq] at h1
          subst h1
          cases hr
        · simp at h1

/-- The three ways through `querySIP`: the dial fails, the write fails, or both
succeed and the read loop runs. -/
theorem querySIP_cases (url : URL) (skipVerify : Bool) (net : SocketNet) (r : Rand) :
    (∃ err, sipDial url skipVerify net = Except.error err ∧
      querySIP url skipVerify net r = [Msg.responseErr err]) ∨
    (∃ la err, sipDial url skipVerify net = Except.ok la ∧
      net.write (renderRequest TCP_OPTIONS la url.Scheme r).1 = some err ∧
      querySIP url skipVerify net r = [Msg.responseErr err]) ∨
    (∃ la, sipDial url skipVerify net = Except.ok la ∧
      net.write (renderRequest TCP_OPTIONS la url.Scheme r).1 = none ∧
      querySIP url skipVerify net r =
        Msg.request (renderRequest TCP_OPTIONS la url.Scheme r).1 ::
          readLoop net.elapsed [] net.reads) := by
  have hq : querySIP url skipVerify net r =
      match sipDial url skipVerify net with
      | Except.error err => [Msg.responseErr err]
      | Except.ok localAddr =>
        match net.write (renderRequest TCP_OPTIONS localAddr url.Scheme r).1 with
        | some err => [Msg.responseErr err]
        | none => Msg.request (renderRequest TCP_OPTIONS localAddr url.Scheme r).1 ::
            readLoop net.elapsed [] net.reads := rfl
  rw [hq]
  cases hd : sipDial url skipVerify net with
  | error err => exact Or.inl ⟨err, rfl, rfl⟩
  | ok la =>
    cases hw : net.write (renderRequest TCP_OPTIONS la url.Scheme r).1 with
    | some err =>
      refine Or.inr (Or.inl ⟨la, err, rfl, hw, ?_⟩)
      simp only [hw]
    | none =>
      refine Or.inr (Or.inr ⟨la, rfl, hw, ?_⟩)
      simp only [hw]

/-- The three ways through `queryWS`. -/
theorem queryWS_cases (url : URL) (addr : GoString) (skipVerify : Bool) (net : WSNet)
    (r : Rand) :
    (∃ err, net.dial addr skipVerify = some err ∧
      queryWS url addr skipVerify net r = [Msg.responseErr err]) ∨
    (∃ err, net.dial addr skipVerify = none ∧
      net.write (renderRequest WS_OPTIONS [] url.Scheme r).1 = some err ∧
      queryWS url addr skipVerify net r = [Msg.responseErr err]) ∨
    (net.dial addr skipVerify = none ∧
      net.write (renderRequest WS_OPTIONS [] url.Scheme r).1 = none ∧
      ((net.read = none ∧ queryWS url addr skipVerify net r =
          [Msg.request (renderRequest WS_OPTIONS [] url.Scheme r).1]) ∨
        (∃ err, net.read = some (Except.error err) ∧ queryWS url addr skipVerify net r =
          [Msg.request (renderRequest WS_OPTIONS [] url.Scheme r).1, Msg.responseErr err]) ∨
        (∃ m, net.read = some (Except.ok m) ∧ queryWS url addr skipVerify net r =
          [Msg.request (renderRequest WS_OPTIONS [] url.Scheme r).1,
            Msg.response ⟨strReplaceAll m escapedCRLF CRLF, net.elapsed⟩]))) := by
  unfold queryWS
  cases hd : net.dial addr skipVerify with
  | some err => exact Or.inl ⟨err, rfl, rfl⟩
  | none =>
    cases hw : net.write (renderRequest WS_OPTIONS [] url.Scheme r).1 with
    | some err =>
      refine Or.inr (Or.inl ⟨err, rfl, rfl, ?_⟩)
      simp only [hw]
    | none =>
      refine Or.inr (Or.inr ⟨rfl, rfl, ?_⟩)
      simp only [hw]
      cases hr : net.read with
      | none => exact Or.inl ⟨rfl, rfl⟩
      | some res =>
        cases res with
        | error err => exact Or.inr (Or.inl ⟨err, rfl, rfl⟩)
        | ok m => exact Or.inr (Or.inr ⟨m, rfl, rfl⟩)

/-- The events of `querySIP`: their shape, when the "request sent" event is
among them and when an outcome event is. -/
theorem querySIP_events (url : URL) (skipVerify : Bool) (net : SocketNet) (r : Rand) :
    EventShape (querySIP url skipVerify net r) ∧
    (requestCount (querySIP url skipVerify net r) = 1 ↔
      ∃ la, sipDial url skipVerify net = Except.ok la ∧
        net.write (renderRequest TCP_OPTIONS la url.Scheme r).1 = none) ∧
    (outcomeCount (querySIP url skipVerify net r) = 1 ↔
      (¬ (∃ la, sipDial url skipVerify net = Except.ok la ∧
          net.write (renderRequest TCP_OPTIONS la url.Scheme r).1 = none) ∨
        Decisive [] net.reads)) := by
  rcases querySIP_cases url skipVerify net r with ⟨err, hd, hq⟩ | ⟨la, err, hd, hw, hq⟩ |
    ⟨la, hd, hw, hq⟩
  · have hno : ¬ ∃ la, sipDial url skipVerify net = Except.ok la ∧
        net.write (renderRequest TCP_OPTIONS la url.Scheme r).1 = none := by
      rintro ⟨la, h1, _⟩
      rw [hd] at h1
      cases h1
    rw [hq]
    refine ⟨Or.inl ⟨err, rfl⟩, ⟨fun h => ?_, fun h => absurd h hno⟩, ⟨fun _ => Or.inl hno,
      fun _ => rfl⟩⟩
    exact absurd h Nat.zero_ne_one
  · have hno : ¬ ∃ la, sipDial url skipVerify net = Except.ok la ∧
        net.write (renderRequest TCP_OPTIONS la url.Scheme r).1 = none := by
      rintro ⟨la2, h1, h2⟩
      rw [hd] at h1
      cases h1
      rw [hw] at h2
      cases h2
    rw [hq]
    refine ⟨Or.inl ⟨err, rfl⟩, ⟨fun h => ?_, fun h => absurd h hno⟩, ⟨fun _ => Or.inl hno,
      fun _ => rfl⟩⟩
    exact absurd h Nat.zero_ne_one
  · have hyes : ∃ la, sipDial url skipVerify net = Except.ok la ∧
        net.write (renderRequest TCP_OPTIONS la url.Scheme r).1 = none := ⟨la, hd, hw⟩
    have hdec := readLoop_ne_nil_iff net.elapsed net.reads []
    rw [hq]
    rcases readLoop_shape net.elapsed net.reads [] with hl | ⟨err, hl⟩ | ⟨resp, hl⟩
    · rw [hl] at hdec ⊢
      refine ⟨Or.inr (Or.inl ⟨_, rfl⟩), ⟨fun _ => hyes, fun _ => rfl⟩, ⟨fun h => ?_, fun h => ?_⟩⟩
      · exact absurd h Nat.zero_ne_one
      · rcases h with h | h
        · exact absurd hyes h
        · exact absurd rfl (hdec.mpr h)
    · rw [hl] at hdec ⊢
      exact ⟨Or.inr (Or.inr (Or.inl ⟨_, err, rfl⟩)), ⟨fun _ => hyes, fun _ => rfl⟩,
        ⟨fun _ => Or.inr (hdec.mp (by simp)), fun _ => rfl⟩⟩
    · rw [hl] at hdec ⊢
      exact ⟨Or.inr (Or.inr (Or.inr ⟨_, resp, rfl⟩)), ⟨fun _ => hyes, fun _ => rfl⟩,
        ⟨fun _ => Or.inr (hdec.mp (by simp)), fun _ => rfl⟩⟩

/-- The events of `queryWS`: their shape, when the "request sent" event is among
them and when an outcome event is. -/
theorem queryWS_events (url : URL) (addr : GoString) (skipVerify : Bool) (net : WSNet)
    (r : Rand) :
    EventShape (queryWS url addr skipVerify net r) ∧
    (requestCount (queryWS url addr skipVerify net r) = 1 ↔
      (net.dial addr skipVerify = none ∧
        net.write (renderRequest WS_OPTIONS [] url.Scheme r).1 = none)) ∧
    (outcomeCount (queryWS url addr skipVerify net r) = 1 ↔
      (¬ (net.dial addr skipVerify = none ∧
          net.write (renderRequest WS_OPTIONS [] url.Scheme r).1 = none) ∨
        net.read ≠ none)) := by
  rcases queryWS_cases url addr skipVerify net r with ⟨err, hd, hq⟩ | ⟨err, hd, hw, hq⟩ |
    ⟨hd, hw, hrest⟩
  · have hno : ¬ (net.dial addr skipVerify = none ∧
        net.write (renderRequest WS_OPTIONS [] url.Scheme r).1 = none) := by
      rintro ⟨h1, _⟩
      rw [hd] at h1
      cases h1
    rw [hq]
    refine ⟨Or.inl ⟨err, rfl⟩, ⟨fun h => ?_, fun h => absurd h hno⟩, ⟨fun _ => Or.inl hno,
      fun _ => rfl⟩⟩
    exact absurd h Nat.zero_ne_one
  · have hno : ¬ (net.dial addr skipVerify = none ∧
        net.write (renderRequest WS_OPTIONS [] url.Scheme r).1 = none) := by
      rintro ⟨_, h2⟩
      rw [hw] at h2
      cases h2
    rw [hq]
    refine ⟨Or.inl ⟨err, rfl⟩, ⟨fun h => ?_, fun h => absurd h hno⟩, ⟨fun _ => Or.inl hno,
      fun _ => rfl⟩⟩
    exact absurd h Nat.zero_ne_one
  · have hyes : net.dial addr skipVerify = none ∧
        net.write (renderRequest WS_OPTIONS [] url.Scheme r).1 = none := ⟨hd, hw⟩
    rcases hrest with ⟨hr, hq⟩ | ⟨err, hr, hq⟩ | ⟨m, hr, hq⟩
    · rw [hq]
      refine ⟨Or.inr (Or.inl ⟨_, rfl⟩), ⟨fun _ => hyes, fun _ => rfl⟩, ⟨fun h => ?_, fun h => ?_⟩⟩
      · exact absurd h Nat.zero_ne_one
      · rcases h with h | h
        · exact absurd hyes h
        · exact absurd hr h
    · rw [hq]
      exact ⟨Or.inr (Or.inr (Or.inl ⟨_, err, rfl⟩)), ⟨fun _ => hyes, fun _ => rfl⟩,
        ⟨fun _ => Or.inr (by rw [hr]; exact fun h => by cases h), fun _ => rfl⟩⟩
    · rw [hq]
      exact ⟨Or.inr (Or.inr (Or.inr ⟨_, _, rfl⟩)), ⟨fun _ => hyes, fun _ => rfl⟩,
        ⟨fun _ => Or.inr (by rw [hr]; exact fun h => by cases h), fun _ => rfl⟩⟩

set_option maxRecDepth 100000 in
/-- C11, counterexample.  Over `tcp` dial and write succeed and one read returns
a provisional answer without the empty line; nothing more arrives, so the next
`conn.Read` does not return.  `querySIP` has then sent its "request sent" event
and no outcome event.  The same holds for `queryWS` when dial and write succeed
and no frame arrives. -/
theorem C11_counterexample :
    (sipDial tcpURL false (feedSocket "10.0.0.1:5060".toList [okRead tryingChunk] 0) =
        Except.ok "10.0.0.1:5060".toList ∧
      (feedSocket "10.0.0.1:5060".toList [okRead tryingChunk] 0).write
        (renderRequest TCP_OPTIONS "10.0.0.1:5060".toList "tcp".toList exampleRand).1 = none) ∧
    querySIP tcpURL false (feedSocket "10.0.0.1:5060".toList [okRead tryingChunk] 0)
        exampleRand =
      [Msg.request (renderRequest TCP_OPTIONS "10.0.0.1:5060".toList "tcp".toList
        exampleRand).1] ∧
    outcomeCount (querySIP tcpURL false
      (feedSocket "10.0.0.1:5060".toList [okRead tryingChunk] 0) exampleRand) = 0 ∧
    queryWS wsURL "ws://example.org:8080".toList false silentWS exampleRand =
      [Msg.request (renderRequest WS_OPTIONS [] "ws".toList exampleRand).1] ∧
    outcomeCount (queryWS wsURL "ws://example.org:8080".toList false silentWS exampleRand) = 0 ∧
    (0 : Nat) ≠ 1 := by
  refine ⟨⟨rfl, rfl⟩, ?_, ?_, ?_, ?_, ?_⟩ <;> decide

/-- C11, amended.  For every result of dial, write and reads, each of the two
strategies sends at most one "request sent" event and at most one outcome event,
never a response together with a transport error, and every "request sent"
event before every outcome event.  The "request sent" event is sent exactly
when dial and write both succeeded.  An outcome event is sent exactly when dial
or write failed or the reads are decisive: for `querySIP` one of them returns an
error or completes the buffer (terminator or 65536 bytes), for `queryWS` the
read of the frame returns; otherwise the strategy stays blocked in its read and
sends no outcome event. -/
theorem C11_strategy_events :
    (∀ (url : URL) (skipVerify : Bool) (net : SocketNet) (r : Rand),
      requestCount (querySIP url skipVerify net r) ≤ 1 ∧
      outcomeCount (querySIP url skipVerify net r) ≤ 1 ∧
      ¬ (∃ resp err, Msg.response resp ∈ querySIP url skipVerify net r ∧
        Msg.responseErr err ∈ querySIP url skipVerify net r) ∧
      (∀ (i j : Nat) (m1 m2 : Msg), (querySIP url skipVerify net r)[i]? = some m1 →
        m1.isRequest = true → (querySIP url skipVerify net r)[j]? = some m2 →
        m2.isOutcome = true → i < j) ∧
      (requestCount (querySIP url skipVerify net r) = 1 ↔
        ∃ la, sipDial url skipVerify net = Except.ok la ∧
          net.write (renderRequest TCP_OPTIONS la url.Scheme r).1 = none) ∧
      (outcomeCount (querySIP url skipVerify net r) = 1 ↔
        (¬ (∃ la, sipDial url skipVerify net = Except.ok la ∧
            net.write (renderRequest TCP_OPTIONS la url.Scheme r).1 = none) ∨
          Decisive [] net.reads))) ∧
    (∀ (url : URL) (addr : GoString) (skipVerify : Bool) (net : WSNet) (r : Rand),
      requestCount (queryWS url addr skipVerify net r) ≤ 1 ∧
      outcomeCount (queryWS url addr skipVerify net r) ≤ 1 ∧
      ¬ (∃ resp err, Msg.response resp ∈ queryWS url addr skipVerify net r ∧
        Msg.responseErr err ∈ queryWS url addr skipVerify net r) ∧
      (∀ (i j : Nat) (m1 m2 : Msg), (queryWS url addr skipVerify net r)[i]? = some m1 →
        m1.isRequest = true → (queryWS url addr skipVerify net r)[j]? = some m2 →
        m2.isOutcome = true → i < j) ∧
      (requestCount (queryWS url addr skipVerify net r) = 1 ↔
        (net.dial addr skipVerify = none ∧
          net.write (renderRequest WS_OPTIONS [] url.Scheme r).1 = none)) ∧
      (outcomeCount (queryWS url addr skipVerify net r) = 1 ↔
        (¬ (net.dial addr skipVerify = none ∧
            net.write (renderRequest WS_OPTIONS [] url.Scheme r).1 = none) ∨
          net.read ≠ none))) := by
  refine ⟨fun url skipVerify net r => ?_, fun url addr skipVerify net r => ?_⟩
  · obtain ⟨hshape, hreq, hout⟩ := querySIP_events url skipVerify net r
    obtain ⟨f1, f2, f3, f4⟩ := hshape.facts
    exact ⟨f1, f2, f3, f4, hreq, hout⟩
  · obtain ⟨hshape, hreq, hout⟩ := queryWS_events url addr skipVerify net r
    obtain ⟨f1, f2, f3, f4⟩ := hshape.facts
    exact ⟨f1, f2, f3, f4, hreq, hout⟩

set_option maxRecDepth 100000 in
/-- C11, the amended statement at two examples: a peer that answers in one read
(one "request sent" event, one outcome event), and the silent peer of the
counterexample (no outcome event, the reads not being decisive). -/
theorem C11_strategy_events_witness :
    (requestCount (querySIP tcpURL false lateMarkerWorld.socket exampleRand) = 1 ∧
      outcomeCount (querySIP tcpURL false lateMarkerWorld.socket exampleRand) = 1) ∧
    Decisive [] lateMarkerWorld.socket.reads ∧
    ¬ Decisive [] (feedSocket "10.0.0.1:5060".toList [okRead tryingChunk] 0).reads := by
  have h1 := (C11_strategy_events.1 tcpURL false lateMarkerWorld.socket exampleRand).2.2.2.2.2
  have h2 := (C11_strategy_events.1 tcpURL false
    (feedSocket "10.0.0.1:5060".toList [okRead tryingChunk] 0) exampleRand).2.2.2.2
  have hc1 : outcomeCount (querySIP tcpURL false lateMarkerWorld.socket exampleRand) = 1 := by
    decide
  have hc2 : outcomeCount (querySIP tcpURL false
      (feedSocket "10.0.0.1:5060".toList [okRead tryingChunk] 0) exampleRand) ≠ 1 := by
    decide
  refine ⟨⟨by decide, hc1⟩, ?_, fun hd => hc2 (h2.2.mpr (Or.inr hd))⟩
  rcases h1.mp hc1 with h | h
  · exact absurd ⟨_, rfl, rfl⟩ h
  · exact h

end SipPing
